import Mathlib

/-!
A shallow embedding of the TSQL query engine of `delphin/tsql.py`
(lexing interface, condition/select parser, qualified-name resolution,
join planning with pivot search, join execution and condition filtering),
together with theorems checking the specification's claims against it.

Python dictionaries are embedded as insertion-ordered association lists
and Python sets as insertion-ordered duplicate-free lists.  Fallible
operations return `Except QErr`.  Components of the repository that are
referenced by `tsql.py` but whose sources are not part of the package
under verification (`delphin.util.Lexer`, `delphin.util._connected_components`,
`delphin.tsdb`) are modelled from the specification, as marked on each
such definition.
-/

namespace TSQLSpec

/-- Errors of the engine: `syntaxErr` embeds `TSQLSyntaxError`, `tsqlErr`
embeds `TSQLError`, `keyErr` embeds a Python `KeyError`/lookup failure
(outside the documented error taxonomy), and `outOfFuel` marks exhaustion
of the step budget given to an embedded loop. -/
inductive QErr where
  | syntaxErr (msg : String)
  | tsqlErr (msg : String)
  | keyErr (key : String)
  | outOfFuel
deriving DecidableEq, Repr

/-- The token types of the TSQL lexer grammar (`_TSQLLexer` in `tsql.py`). -/
inductive TokT where
  | FROM | WHERE | REPORT | STAR | DOT | OP | AND | OR | NOT
  | LPAREN | RPAREN | DQSTRING | SQSTRING | YYYYMMDD | DDMMYY | KWDATE
  | INT | QID | ID | UNEXPECTED
deriving DecidableEq, Repr

/-- A token: its type together with the matched text (for quoted strings,
the text between the quotes). -/
structure Token where
  typ : TokT
  val : String
deriving DecidableEq, Repr

/-- Modelled from the spec: `delphin.util.Lexer` (whose source is not part
of the package under verification) supports a lookahead-based "accept"
operation: consume the next token and return its value if its type
matches, else do nothing. -/
def accept_type (t : TokT) : List Token → Option (String × List Token)
  | [] => none
  | tok :: rest => if tok.typ = t then some (tok.val, rest) else none

/-- Modelled from the spec: `delphin.util.Lexer`'s "expect" operation:
consume the next token and return its value, or fail with a syntax error
when the next token is missing or of the wrong type. -/
def expect_type (t : TokT) : List Token → Except QErr (String × List Token)
  | [] => throw (.syntaxErr "unexpected end of input")
  | tok :: rest =>
    if tok.typ = t then pure (tok.val, rest)
    else throw (.syntaxErr "unexpected token")

/-- Modelled from the spec: `delphin.util.Lexer`'s "choice" operation:
expect one of several token types, returning the matched token. -/
def choice_type (ts : List TokT) : List Token → Except QErr (Token × List Token)
  | [] => throw (.syntaxErr "unexpected end of input")
  | tok :: rest =>
    if tok.typ ∈ ts then pure (tok, rest)
    else throw (.syntaxErr "unexpected token")

/-- A typed TSQL literal value (`tsdb.Value`): integer, string, date, or
the null value used for padding in left joins. -/
inductive TValue where
  | int (i : Int)
  | str (s : String)
  | date (s : String)
  | null
deriving DecidableEq, Repr

/-- Modelled from the spec: `tsdb.cast(':date', raw)` (whose source is not
part of the package under verification) normalizes a recognized date token
to a comparable date value; embedded as tagging the raw token text. -/
def castDate (raw : String) : TValue := .date raw

/-- The condition AST produced by the parser: comparisons
`(op, (column, value))`, boolean nodes `('and'|'or', conditions)`, and
negations `('not', condition)`. -/
inductive Condition where
  | comparison (op : String) (column : String) (value : TValue)
  | boolean (op : String) (conds : List Condition)
  | negation (c : Condition)

/-- The final `len(conds)` dispatch shared by `_parse_condition_disjunction`
and `_parse_condition_conjunction`: an empty list is a syntax error, a
singleton collapses, otherwise a boolean node is built. -/
def _finish_conds (op : String) (conds : List Condition) : Except QErr Condition :=
  match conds with
  | [] => throw (.syntaxErr "invalid query")
  | [c] => pure c
  | cs => pure (.boolean op cs)

/-- The numeric value of a digit string. -/
def digitsToNat (ds : List Char) : Nat :=
  ds.foldl (fun n c => n * 10 + (c.toNat - '0'.toNat)) 0

/-- Python `int()` on the text of an `INT` token (`[+-]?\d+`). -/
def pyIntOfString (s : String) : Int :=
  match s.data with
  | '-' :: ds => - (digitsToNat ds : Int)
  | '+' :: ds => (digitsToNat ds : Int)
  | ds => (digitsToNat ds : Int)

/-- `_parse_condition_statement`: parse `<op> <literal>` after *column*,
normalizing `=` to `==` and constraining the literal's token type by the
operator. -/
def _parse_condition_statement (column : String) (l : List Token) :
    Except QErr (Condition × List Token) := do
  let (op, l) ← expect_type .OP l
  let op := if op = "=" then "==" else op
  let (tok, l) ←
    if op = "~" ∨ op = "!~" then
      choice_type [.DQSTRING, .SQSTRING] l
    else if op = "<" ∨ op = "<=" ∨ op = ">" ∨ op = ">=" then
      choice_type [.INT, .YYYYMMDD, .DDMMYY, .KWDATE] l
    else
      choice_type [.INT, .DQSTRING, .SQSTRING, .YYYYMMDD, .DDMMYY, .KWDATE] l
  let value :=
    if tok.typ = .INT then TValue.int (pyIntOfString tok.val)
    else if tok.typ = .YYYYMMDD ∨ tok.typ = .DDMMYY ∨ tok.typ = .KWDATE then
      castDate tok.val
    else TValue.str tok.val
  pure (.comparison op column value, l)

mutual

/-- `_parse_condition_disjunction`: parse a conjunction, then the
`{'or' conjunction}` tail. -/
def _parse_condition_disjunction : Nat → List Token → Except QErr (Condition × List Token)
  | 0, _ => throw .outOfFuel
  | n + 1, l => do
    let (c, l) ← _parse_condition_conjunction n l
    parseDisjRest n [c] l

/-- The `while True ... if not lexer.accept_type(_OR): break` loop of
`_parse_condition_disjunction`, accumulating the conjuncts in order. -/
def parseDisjRest : Nat → List Condition → List Token → Except QErr (Condition × List Token)
  | 0, _, _ => throw .outOfFuel
  | n + 1, acc, l =>
    match accept_type .OR l with
    | none => do
      let c ← _finish_conds "or" acc
      pure (c, l)
    | some (_, l') => do
      let (c, l'') ← _parse_condition_conjunction n l'
      parseDisjRest n (acc ++ [c]) l''

/-- `_parse_condition_conjunction`: parse one condition unit, then the
`{'and' unit}` tail. -/
def _parse_condition_conjunction : Nat → List Token → Except QErr (Condition × List Token)
  | 0, _ => throw .outOfFuel
  | n + 1, l => do
    let (c, l) ← parseCondUnit n l
    parseConjRest n [c] l

/-- The `while True ... if not lexer.accept_type(_AND): break` loop of
`_parse_condition_conjunction`, accumulating the conjuncts in order. -/
def parseConjRest : Nat → List Condition → List Token → Except QErr (Condition × List Token)
  | 0, _, _ => throw .outOfFuel
  | n + 1, acc, l =>
    match accept_type .AND l with
    | none => do
      let c ← _finish_conds "and" acc
      pure (c, l)
    | some (_, l') => do
      let (c, l'') ← parseCondUnit n l'
      parseConjRest n (acc ++ [c]) l''

/-- The body of `_parse_condition_conjunction`'s loop: one condition unit,
which is a negated disjunction after `not`, a parenthesized disjunction,
or a comparison statement starting with a (qualified) identifier. -/
def parseCondUnit : Nat → List Token → Except QErr (Condition × List Token)
  | 0, _ => throw .outOfFuel
  | n + 1, l => do
    let (tok, l) ← choice_type [.NOT, .LPAREN, .QID, .ID] l
    match tok.typ with
    | .NOT => do
      let (c, l) ← _parse_condition_disjunction n l
      pure (.negation c, l)
    | .LPAREN => do
      let (c, l) ← _parse_condition_disjunction n l
      let (_, l) ← expect_type .RPAREN l
      pure (c, l)
    | _ => _parse_condition_statement tok.val l

end

/-- The interpreted query object (the dictionary returned by
`_parse_select`, whose `'type'` entry is always `'select'`). -/
structure Query where
  projection : List String
  relations : List String
  condition : Option Condition

/-- The `while col_id` loop of `_parse_select_projection`: keep accepting
qualified or simple identifiers. -/
def projLoop : List Token → List String → (List String × List Token)
  | [], acc => (acc, [])
  | tok :: rest, acc =>
    if tok.typ = .QID ∨ tok.typ = .ID then projLoop rest (acc ++ [tok.val])
    else (acc, tok :: rest)

/-- `_parse_select_projection`: `'*'` alone, or one or more (qualified)
identifiers. -/
def _parse_select_projection (l : List Token) : Except QErr (List String × List Token) := do
  let (tok, l) ← choice_type [.STAR, .QID, .ID] l
  if tok.typ = .QID ∨ tok.typ = .ID then
    pure (projLoop l [tok.val])
  else
    pure ([tok.val], l)

/-- The `while relation` loop of `_parse_select_from`: keep accepting
simple identifiers. -/
def fromLoop : List Token → List String → (List String × List Token)
  | [], acc => (acc, [])
  | tok :: rest, acc =>
    if tok.typ = .ID then fromLoop rest (acc ++ [tok.val])
    else (acc, tok :: rest)

/-- `_parse_select_from`: an optional `from` clause naming one or more
relations. -/
def _parse_select_from (l : List Token) : Except QErr (List String × List Token) :=
  match accept_type .FROM l with
  | none => pure ([], l)
  | some (_, l') => do
    let (rel, l'') ← expect_type .ID l'
    pure (fromLoop l'' [rel])

/-- The `while lexer.accept_type(_WHERE)` loop of `_parse_select_where`:
each `where` clause contributes one disjunction. -/
def parseWhereLoop : Nat → List Condition → List Token → Except QErr (List Condition × List Token)
  | 0, _, _ => throw .outOfFuel
  | n + 1, acc, l =>
    match accept_type .WHERE l with
    | none => pure (acc, l)
    | some (_, l') => do
      let (c, l'') ← _parse_condition_disjunction n l'
      parseWhereLoop n (acc ++ [c]) l''

/-- `_parse_select_where`: zero or more `where` clauses; several clauses
become conjuncts of one outer `'and'` node. -/
def _parse_select_where (n : Nat) (l : List Token) :
    Except QErr (Option Condition × List Token) := do
  let (conds, l) ← parseWhereLoop n [] l
  let condition : Option Condition :=
    match conds with
    | [] => none
    | [c] => some c
    | cs => some (.boolean "and" cs)
  pure (condition, l)

/-- `_parse_select` applied to an already-lexed token stream (the source
appends a sentinel `'.'` to the query string before lexing; here the
stream is expected to carry the corresponding final `DOT` token). -/
def _parse_select_tokens (n : Nat) (tokens : List Token) : Except QErr Query := do
  let (projection, l) ← _parse_select_projection tokens
  let (relations, l) ← _parse_select_from l
  let (condition, l) ← _parse_select_where n l
  let (_, _l) ← expect_type .DOT l
  if projection = ["*"] ∧ relations = [] then
    throw (.syntaxErr "select * requires a from clause")
  pure { projection := projection, relations := relations, condition := condition }

/-! ### Tokenization

The token patterns below are those of `_TSQLLexer` in `tsql.py`.  The
matching engine itself (`delphin.util.Lexer.lex`) is not part of the
package under verification and is modelled from the spec: whitespace is
skipped, the rules are tried in their listed order at each position, the
first rule that matches wins (each rule matching greedily), and a
character matching no rule yields an `UNEXPECTED` token. -/

/-- Whitespace, as skipped between tokens. -/
def isWsChar (c : Char) : Bool :=
  c = ' ' ∨ c = '\t' ∨ c = '\n' ∨ c = '\r' ∨ c = '\x0b' ∨ c = '\x0c'

/-- A matcher consumes a prefix of the input, returning the matched
characters and the rest. -/
abbrev Matcher := List Char → Option (List Char × List Char)

/-- Strip an expected literal prefix. -/
def stripPre : List Char → List Char → Option (List Char)
  | [], cs => some cs
  | _ :: _, [] => none
  | p :: ps, c :: cs => if c = p then stripPre ps cs else none

/-- Match a literal string. -/
def mlit (s : String) : Matcher := fun cs =>
  (stripPre s.data cs).map (fun r => (s.data, r))

/-- Match the first of several literal alternatives (regex alternation
order). -/
def firstLit (alts : List String) : Matcher := fun cs =>
  match alts with
  | [] => none
  | a :: rest => mlit a cs <|> firstLit rest cs

/-- Sequence two matchers. -/
def mseq (m₁ m₂ : Matcher) : Matcher := fun cs => do
  let (a, r) ← m₁ cs
  let (b, r') ← m₂ r
  pure (a ++ b, r')

/-- An optional matcher (greedy: matches if it can, else matches nothing). -/
def mopt (m : Matcher) : Matcher := fun cs => some ((m cs).getD ([], cs))

/-- Alternation of two matchers (first match wins). -/
def malt (m₁ m₂ : Matcher) : Matcher := fun cs => m₁ cs <|> m₂ cs

/-- Match exactly `k` digits. -/
def mdigits (k : Nat) : Matcher := fun cs =>
  let pre := cs.take k
  if pre.length = k ∧ pre.all Char.isDigit then some (pre, cs.drop k) else none

/-- Match `\s*`. -/
def mws0 : Matcher := fun cs => some (cs.span isWsChar)

/-- Match `\s+`. -/
def mws1 : Matcher := fun cs =>
  let (a, r) := cs.span isWsChar
  if a.isEmpty then none else some (a, r)

/-- `_month`: one or two digits (greedy) or a three-letter month name. -/
def mMonth : Matcher :=
  malt (mdigits 2) (malt (mdigits 1)
    (firstLit ["jan", "feb", "mar", "apr", "may", "jun",
               "jul", "aug", "sep", "oct", "nov", "dec"]))

/-- `_day`: one or two digits (greedy). -/
def mDay : Matcher := malt (mdigits 2) (mdigits 1)

/-- `_yr`: four or two digits (greedy). -/
def mYr : Matcher := malt (mdigits 4) (mdigits 2)

/-- `_time`: `\s*(hh:mm(:ss)?)` in parentheses, or `\s+hh:mm:ss`. -/
def mTime : Matcher :=
  malt
    (mseq mws0 (mseq (mlit "(") (mseq (mdigits 2) (mseq (mlit ":")
      (mseq (mdigits 2) (mseq (mopt (mseq (mlit ":") (mdigits 2))) (mlit ")")))))))
    (mseq mws1 (mseq (mdigits 2) (mseq (mlit ":")
      (mseq (mdigits 2) (mseq (mlit ":") (mdigits 2))))))

/-- `_yyyy_mm_dd`: `year-month(-day)?(time)?` (greedy, no backtracking). -/
def mYyyyMmDd : Matcher :=
  mseq (mdigits 4) (mseq (mlit "-") (mseq mMonth
    (mseq (mopt (mseq (mlit "-") mDay)) (mopt mTime))))

/-- `_dd_mm_yy`: `(day-)?month-year(time)?`; the optional day group is
tried both ways, as regex backtracking would. -/
def mDdMmYy : Matcher :=
  let core := mseq mMonth (mseq (mlit "-") (mseq mYr (mopt mTime)))
  malt (mseq mDay (mseq (mlit "-") core)) core

/-- Scan the inside of a quoted string (pattern `([^q\\]*(?:\\.[^q\\]*)*)q`):
stop at an unescaped closing quote, keeping escape sequences verbatim. -/
def scanQuoted (q : Char) : List Char → List Char → Option (List Char × List Char)
  | _, [] => none
  | acc, c :: rest =>
    if c = q then some (acc.reverse, rest)
    else if c = '\\' then
      match rest with
      | [] => none
      | e :: rest' => scanQuoted q (e :: c :: acc) rest'
    else scanQuoted q (c :: acc) rest

/-- Match a quoted string literal, returning the text between the quotes
(the pattern's capture group). -/
def mQuoted (q : Char) : List Char → Option (List Char × List Char) := fun cs =>
  match cs with
  | c :: rest => if c = q then scanQuoted q [] rest else none
  | [] => none

/-- `_id`: `[a-zA-Z][-_a-zA-Z0-9]*`. -/
def mId : Matcher := fun cs =>
  match cs with
  | c :: rest =>
    if c.isAlpha then
      let (tl, r) := rest.span (fun d => d.isAlphanum ∨ d = '-' ∨ d = '_')
      some (c :: tl, r)
    else none
  | [] => none

/-- `_qid`: `id.id`. -/
def mQid : Matcher := mseq mId (mseq (mlit ".") mId)

/-- `[+-]?\d+`. -/
def mInt : Matcher := fun cs =>
  let m := mseq (mopt (malt (mlit "+") (mlit "-"))) (fun cs' =>
    let (ds, r) := cs'.span Char.isDigit
    if ds.isEmpty then none else some (ds, r))
  m cs

/-- The ordered token rule table of `_TSQLLexer` (minus the final
catch-all `UNEXPECTED` rule, handled by `matchToken`). -/
def tokenRules : List (TokT × Matcher) :=
  [(.FROM, mlit "from"),
   (.WHERE, mlit "where"),
   (.REPORT, mlit "report"),
   (.STAR, mlit "*"),
   (.DOT, mlit "."),
   (.OP, firstLit ["==", "=", "!=", "~", "!~", "<=", "<", ">=", ">"]),
   (.AND, firstLit ["&&", "&", "and"]),
   (.OR, firstLit ["||", "|", "or"]),
   (.NOT, firstLit ["!", "not"]),
   (.LPAREN, mlit "("),
   (.RPAREN, mlit ")"),
   (.DQSTRING, mQuoted '"'),
   (.SQSTRING, mQuoted '\''),
   (.YYYYMMDD, mYyyyMmDd),
   (.DDMMYY, mDdMmYy),
   (.KWDATE, firstLit [":today", "now"]),
   (.INT, mInt),
   (.QID, mQid),
   (.ID, mId)]

/-- Run an ordered rule table: the first rule that matches wins. -/
def runRules : List (TokT × Matcher) → List Char → Option (Token × List Char)
  | [], _ => none
  | (t, m) :: rest, cs =>
    match m cs with
    | some (a, r) => some (⟨t, String.mk a⟩, r)
    | none => runRules rest cs

/-- Try the token rules in the order of `_TSQLLexer`'s rule list, producing
the first matching token; a character matching no rule becomes an
`UNEXPECTED` token. -/
def matchToken (cs : List Char) : Option (Token × List Char) :=
  match runRules tokenRules cs with
  | some res => some res
  | none =>
    match cs with
    | c :: rest => some (⟨.UNEXPECTED, String.mk [c]⟩, rest)
    | [] => none

/-- The tokenizing loop, with a step budget of at least one step per
input character. -/
def tokenizeAux : Nat → List Char → List Token
  | 0, _ => []
  | n + 1, cs =>
    match cs.dropWhile isWsChar with
    | [] => []
    | c :: rest =>
      match matchToken (c :: rest) with
      | some (tok, r) => tok :: tokenizeAux n r
      | none => tokenizeAux n rest

/-- Tokenize a query string. -/
def tokenize (s : String) : List Token := tokenizeAux (s.length + 1) s.data

/-- `_parse_select` on a query string: append the sentinel `'.'`, lex, and
parse (the parsing fuel is ample for the token count). -/
def _parse_select (querystring : String) : Except QErr Query :=
  let tokens := tokenize (querystring ++ ".")
  _parse_select_tokens (3 * tokens.length + 3) tokens

/-- `_parse_query`: strip leading whitespace, split off the first word,
lower-case it, and dispatch `select`/`retrieve` bodies to `_parse_select`. -/
def _parse_query (querystring : String) : Except QErr Query :=
  let cs := querystring.data.dropWhile isWsChar
  let querytype := String.mk ((cs.takeWhile (fun c => c ≠ ' ')).map Char.toLower)
  let querybody := String.mk ((cs.dropWhile (fun c => c ≠ ' ')).drop 1)
  if querytype = "select" ∨ querytype = "retrieve" then
    _parse_select querybody
  else
    throw (.syntaxErr (querytype ++ " queries are not supported"))

/-! ### Schema, resolver and join planner -/

/-- Modelled from the spec: `tsdb.Field` (whose source is not part of the
package under verification) describes one column: its `name`, `datatype`
tag, and whether it is a key participating in cross-relation joins (the
partial-key flag and comment are never read by the query engine). -/
structure Field where
  name : String
  datatype : String
  is_key : Bool
deriving DecidableEq, Repr

/-- Modelled from the spec: the `tsdb.Database` collaborator exposes an
ordered `schema` mapping relation names to their fields, and row data per
relation (rows in schema column order). -/
structure Database where
  schema : List (String × List Field)
  data : List (String × List (List TValue))
deriving Repr

/-- Modelled from the spec: `tsdb.make_field_index` maps each field name
to its position. -/
def make_field_index (fields : List Field) : List (String × Nat) :=
  fields.enum.map (fun p => (p.2.name, p.1))

/-- Modelled from the spec: `db.select_from(relation, columns)` returns the
relation's rows restricted to *columns*, in the requested column order. -/
def select_from (db : Database) (name : String) (columns : List String) :
    List (List TValue) :=
  let fields := (db.schema.lookup name).getD []
  let fi := make_field_index fields
  let rows := (db.data.lookup name).getD []
  rows.map (fun row => columns.map (fun c =>
    match fi.lookup c with
    | some i => row.getD i TValue.null
    | none => TValue.null))

/-- `dict.setdefault(k, []).append(v)` on an insertion-ordered mapping. -/
def setdefaultApp {α β : Type} [DecidableEq α] (m : List (α × List β)) (k : α) (v : β) :
    List (α × List β) :=
  match m with
  | [] => [(k, [v])]
  | (k', vs) :: rest =>
    if k' = k then (k', vs ++ [v]) :: rest else (k', vs) :: setdefaultApp rest k v

/-- `set.add` on an insertion-ordered duplicate-free list. -/
def addUniq {α : Type} [DecidableEq α] (l : List α) (a : α) : List α :=
  if a ∈ l then l else l ++ [a]

/-- `set.update` on an insertion-ordered duplicate-free list. -/
def unionUniq {α : Type} [DecidableEq α] (l : List α) (xs : List α) : List α :=
  xs.foldl addUniq l

/-- `bool(a.intersection(b))`. -/
def interNonempty (c keys : List String) : Bool := c.any (fun x => keys.contains x)

/-- Python `<` on strings: lexicographic comparison of code points. -/
def strLtChars : List Char → List Char → Bool
  | [], [] => false
  | [], _ :: _ => true
  | _ :: _, [] => false
  | a :: as, b :: bs => if a = b then strLtChars as bs else decide (a.toNat < b.toNat)

/-- Python `<` on strings. -/
def strLt (a b : String) : Bool := strLtChars a.data b.data

/-- Insert a string into a lexicographically sorted list. -/
def insertSorted (a : String) : List String → List String
  | [] => [a]
  | b :: rest => if strLt b a then b :: insertSorted a rest else a :: b :: rest

/-- Python `sorted` on a collection of strings. -/
def sortStr (l : List String) : List String := l.foldr insertSorted []

/-- `_make_schema_map`: the inverse mapping from field names to the
relations containing them, each candidate list stably reordered so that
relations named in the query's `from` clause come first (Python's stable
`sorted` with `key=relations.__contains__, reverse=True`). -/
def _make_schema_map (db : Database) (relations : List String) :
    List (String × List String) :=
  let m := db.schema.foldl
    (fun m rf => rf.2.foldl (fun m f => setdefaultApp m f.name rf.1) m) []
  m.map (fun kv =>
    (kv.1, kv.2.filter (fun r => relations.contains r)
           ++ kv.2.filter (fun r => !relations.contains r)))

/-- Python `colname.rpartition('.')`, keeping only the parts before and
after the last dot (`("", colname)` when there is no dot). -/
def rpartitionDot (s : String) : String × String :=
  let r := s.data.reverse
  let (colRev, rest) := r.span (fun c => c ≠ '.')
  match rest with
  | [] => ("", s)
  | _ :: pre => (String.mk pre.reverse, String.mk colRev.reverse)

/-- The resolver returned by `_make_qname_resolver`: qualified names pass
through unchanged; a bare name is qualified with its first candidate
relation, or rejected as an undefined column. -/
def resolve_qname (schema_map : List (String × List String)) (colname : String) :
    Except QErr String :=
  let (rel, col) := rpartitionDot colname
  if rel ≠ "" then pure colname
  else
    match schema_map.lookup col with
    | some (r :: _) => pure (r ++ "." ++ col)
    | some [] => throw (.keyErr col)
    | none => throw (.tsqlErr ("undefined column: " ++ colname))

/-- `_make_keymap`: each relation's key field names. -/
def _make_keymap (db : Database) : List (String × List String) :=
  db.schema.map (fun rf => (rf.1, (rf.2.filter (fun f => f.is_key)).map (fun f => f.name)))

/-- Modelled from the spec: `util._connected_components` (whose source is
not part of the package under verification) returns the connected
components of the graph on *nodes* with *edges*; embedded by starting
from singleton components and merging along each edge. -/
def _connected_components (nodes : List String) (edges : List (String × String)) :
    List (List String) :=
  edges.foldl
    (fun comps e =>
      match comps.find? (fun c => c.contains e.1), comps.find? (fun c => c.contains e.2) with
      | some ca, some cb =>
        if ca = cb then comps
        else (comps.filter (fun c => ¬(c = ca ∨ c = cb))) ++ [ca ++ cb]
      | _, _ => comps)
    ((nodes.foldl addUniq []).map (fun n => [n]))

/-- `add_edges(keys)` inside `_pivot_relations`: a clique of edges between
the key names. -/
def add_edges : List String → List (String × String)
  | [] => []
  | k :: rest => rest.map (fun k' => (k, k')) ++ add_edges rest

/-- The `while len(components) > 1` pivot-search loop of
`_pivot_relations`: find the first relation of the key map, outside the
current relation set and pivots and with more than one key, whose keys
meet more than one component; add it and repeat, or fail. -/
def pivotLoop : Nat → List String → List (String × List String) → List String →
    List (String × String) → List String → Except QErr (List String)
  | 0, _, _, _, _, _ => throw .outOfFuel
  | n + 1, relset, keymap, nodes, edges, pivots =>
    let components := _connected_components nodes edges
    if components.length ≤ 1 then pure pivots
    else
      match keymap.find? (fun rk =>
          !(relset.contains rk.1) && !(pivots.contains rk.1) &&
          decide (rk.2.length > 1) &&
          decide ((components.countP (fun c => interNonempty c rk.2)) > 1)) with
      | some rk =>
        pivotLoop n relset keymap (unionUniq nodes rk.2) (edges ++ add_edges rk.2)
          (pivots ++ [rk.1])
      | none =>
        throw (.tsqlErr ("could not find relation to join: "
          ++ String.intercalate ", " (sortStr relset)))

/-- `_pivot_relations`: build the key-name graph of the current relation
set, then search for pivot relations until one component remains. -/
def _pivot_relations (relset : List String) (keymap : List (String × List String)) :
    Except QErr (List String) := do
  let init ← relset.foldlM
    (fun (acc : List String × List (String × String)) rel =>
      match keymap.lookup rel with
      | none => throw (.keyErr rel)
      | some keys => pure (unionUniq acc.1 keys, acc.2 ++ add_edges keys))
    ([], [])
  pivotLoop (keymap.length + 1) relset keymap init.1 init.2 []

/-- `joinmap.pop(rel)` on an insertion-ordered mapping with unique keys. -/
def popKey (m : List (String × List String)) (k : String) : List (String × List String) :=
  m.filter (fun kv => kv.1 ≠ k)

/-- The `while joinmap` join-ordering loop of `_plan_joins`: pick the
first pending relation sharing a key with the keys joined so far (the
first relation unconditionally), or fail. -/
def joinLoop : Nat → List (String × List String) → List String →
    List (String × List String) → List (String × List String) →
    Except QErr (List (String × List String))
  | 0, _, _, _, _ => throw .outOfFuel
  | n + 1, keymap, joined_keys, joins, joinmap =>
    if joinmap = [] then pure joins
    else
      match joinmap.find? (fun rk => joins.isEmpty || interNonempty joined_keys rk.2) with
      | some rk =>
        match keymap.lookup rk.1 with
        | none => throw (.keyErr rk.1)
        | some keys =>
          joinLoop n keymap (unionUniq joined_keys keys) (joins ++ [rk]) (popKey joinmap rk.1)
      | none => throw (.tsqlErr "infinite loop detected!")

/-- `_plan_joins`: seed the join map with the referenced columns' relations,
extend the relation set with pivots, request every key field of every
included relation, and order the joins. -/
def _plan_joins (projection condition_fields relations : List String) (db : Database) :
    Except QErr (List (String × List String)) := do
  let seeded := (projection ++ condition_fields).foldl
    (fun (acc : List (String × List String) × List String × List String) qname =>
      if qname ∈ acc.2.1 then acc
      else
        let (rel, col) := rpartitionDot qname
        (setdefaultApp acc.1 rel col, acc.2.1 ++ [qname], addUniq acc.2.2 rel))
    ([], [], relations.foldl addUniq [])
  let joinmap₀ := seeded.1
  let added := seeded.2.1
  let keymap := _make_keymap db
  let pivots ← _pivot_relations seeded.2.2 keymap
  let relset := unionUniq seeded.2.2 pivots
  let joinmap ← relset.foldlM
    (fun jm rel =>
      match db.schema.lookup rel with
      | none => throw (.keyErr rel)
      | some fields => pure (fields.foldl
          (fun jm f =>
            if f.is_key ∧ (rel ++ "." ++ f.name) ∉ added then setdefaultApp jm rel f.name
            else jm)
          jm))
    joinmap₀
  joinLoop (joinmap.length + 1) keymap [] [] joinmap

/-- `_project_all`: expand a wildcard projection to all qualified column
names of the named relations, including each shared key only once. -/
def _project_all (relations : List String) (db : Database) : Except QErr (List String) := do
  let r ← relations.foldlM
    (fun (acc : List String × List String) name =>
      match db.schema.lookup name with
      | none => throw (.keyErr name)
      | some fields => pure (fields.foldl
          (fun (acc : List String × List String) f =>
            let qname := name ++ "." ++ f.name
            if ¬ f.is_key then (acc.1 ++ [qname], acc.2)
            else if f.name ∉ acc.2 then (acc.1 ++ [qname], acc.2 ++ [f.name])
            else acc)
          acc))
    ([], [])
  pure r.1

/-! ### Condition processing and the executor -/

mutual

/-- `_process_condition_fields`: resolve every column name in a condition,
collecting the sorted set of resolved fields of each boolean node. -/
def _process_condition_fields (resolve : String → Except QErr String) :
    Condition → Except QErr (Condition × List String)
  | .boolean op body => do
    let r ← processCondListFields resolve body
    pure (.boolean op r.1, sortStr r.2)
  | .negation c => do
    let r ← _process_condition_fields resolve c
    pure (.negation r.1, r.2)
  | .comparison op col v => do
    let qname ← resolve col
    pure (.comparison op qname v, [qname])

/-- The `for cond in body` loop of `_process_condition_fields`. -/
def processCondListFields (resolve : String → Except QErr String) :
    List Condition → Except QErr (List Condition × List String)
  | [] => pure ([], [])
  | c :: rest => do
    let r ← _process_condition_fields resolve c
    let rs ← processCondListFields resolve rest
    pure (r.1 :: rs.1, unionUniq r.2 rs.2)

end

/-- The string payload of a parsed regex-pattern literal. -/
def strOf : TValue → String
  | .str s => s
  | _ => ""

/-- Python `<` on TSDB values: integers numerically, strings and
normalized dates lexicographically.  An ordering comparison between
values of different types raises `TypeError` in Python and is never
exercised by a planned query; it is embedded as `false`. -/
def py_lt : TValue → TValue → Bool
  | .int a, .int b => a < b
  | .str a, .str b => strLt a b
  | .date a, .date b => strLt a b
  | _, _ => false

/-- `_operator_functions`: the comparison operators map to Python's
`operator` functions. -/
def _operator_functions (op : String) (a b : TValue) : Bool :=
  if op = "==" then a == b
  else if op = "!=" then a != b
  else if op = "<" then py_lt a b
  else if op = "<=" then py_lt a b || a == b
  else if op = ">" then py_lt b a
  else if op = ">=" then py_lt b a || a == b
  else false

/-- Modelled from the spec: Python's `re.search` (an external facility) is
true iff the pattern is found anywhere in the field value; embedded for
literal patterns as substring search.  `re.search` on a non-string value
raises `TypeError` and is embedded as `false`; no theorem below evaluates
a regex condition. -/
def re_search (pattern : String) (v : TValue) : Bool :=
  match v with
  | .str s => containedIn pattern.data s.data
  | _ => false
where
  containedIn (p : List Char) : List Char → Bool
    | [] => p.isEmpty
    | c :: rest => p.isPrefixOf (c :: rest) || containedIn p rest

mutual

/-- The row predicate compiled by `_process_condition_function`: boolean
nodes combine their children with all-of/any-of, `not` negates, `~`/`!~`
search the pattern in the field value, and the remaining operators
compare the field value against the literal. -/
def evalCondition (fi : List (String × Nat)) : Condition → List TValue → Bool
  | .boolean op conds, row =>
    if op = "and" then evalCondAll fi conds row else evalCondAny fi conds row
  | .negation c, row => ! evalCondition fi c row
  | .comparison op col v, row =>
    let val := row.getD ((fi.lookup col).getD 0) TValue.null
    if op = "~" then re_search (strOf v) val
    else if op = "!~" then ! re_search (strOf v) val
    else _operator_functions op val v

/-- `all(cond(row) for cond in conditions)`. -/
def evalCondAll (fi : List (String × Nat)) : List Condition → List TValue → Bool
  | [], _ => true
  | c :: cs, row => evalCondition fi c row && evalCondAll fi cs row

/-- `any(cond(row) for cond in conditions)`. -/
def evalCondAny (fi : List (String × Nat)) : List Condition → List TValue → Bool
  | [], _ => false
  | c :: cs, row => evalCondition fi c row || evalCondAny fi cs row

end

/-- The `Selection` result set: accumulated fields, the name-to-column
index (bare and qualified names), the materialized joined rows, the
requested projection, and the set of relations already joined. -/
structure Selection where
  fields : List Field
  field_index : List (String × Nat)
  data : List (List TValue)
  projection : Option (List String)
  joined : List String

/-- A `Selection` as freshly constructed by `_select`. -/
def Selection.empty : Selection := ⟨[], [], [], none, []⟩

/-- `Selection.select(*names)`: project each row to the named columns (to
all columns when no names are given). -/
def Selection.selectCols (sel : Selection) (names : List String) : List (List TValue) :=
  let indices := if names = [] then List.range sel.fields.length
                 else names.map (fun n => (sel.field_index.lookup n).getD 0)
  sel.data.map (fun row => indices.map (fun i => row.getD i TValue.null))

/-- Iterating a `Selection` yields its rows under the stored projection. -/
def Selection.resultRows (sel : Selection) : List (List TValue) :=
  match sel.projection with
  | none => sel.selectCols []
  | some proj => sel.selectCols proj

/-- `dict[k] = v` on an insertion-ordered mapping. -/
def setIdx (m : List (String × Nat)) (k : String) (v : Nat) : List (String × Nat) :=
  match m with
  | [] => [(k, v)]
  | (k', v') :: rest => if k' = k then (k, v) :: rest else (k', v') :: setIdx rest k v

/-- `if k not in dict: dict[k] = v`. -/
def setIdxIfAbsent (m : List (String × Nat)) (k : String) (v : Nat) : List (String × Nat) :=
  if (m.lookup k).isSome then m else m ++ [(k, v)]

/-- `_merge_fields`: append *fields* to the selection, indexing each under
its bare name (first occurrence only) and its qualified name, re-index the
`on` columns under their qualified names, and record the joined relation.
Every `on` name is present in the index at each call site. -/
def _merge_fields (sel : Selection) (relationname : String) (on_ : List String)
    (fields : List Field) : Selection :=
  let offset := sel.fields.length
  let r := fields.foldl
    (fun (acc : List Field × List (String × Nat) × Nat) f =>
      let fi := setIdxIfAbsent acc.2.1 f.name acc.2.2
      let fi := setIdx fi (relationname ++ "." ++ f.name) acc.2.2
      (acc.1 ++ [f], fi, acc.2.2 + 1))
    (sel.fields, sel.field_index, offset)
  let fi := on_.foldl
    (fun fi name => setIdx fi (relationname ++ "." ++ name) ((fi.lookup name).getD 0))
    r.2.1
  { sel with fields := r.1, field_index := fi, joined := addUniq sel.joined relationname }

/-- `_join`: join the requested *columns* of relation *name* into the
selection.  The first joined relation loads directly; later relations
hash-join on the shared key columns, `left` joins padding unmatched rows
with nulls. -/
def _join (selection : Selection) (db : Database) (name : String)
    (columns : List String) (how : String) : Except QErr Selection := do
  if ¬ (how = "inner" ∨ how = "left") then
    throw (.tsqlErr "only inner and left join methods are allowed")
  if name ∈ selection.joined then
    throw (.tsqlErr "cannot join the same relation twice")
  let all_fields ← match db.schema.lookup name with
    | none => throw (.keyErr name)
    | some fs => pure fs
  let field_index := make_field_index all_fields
  let indices ← columns.mapM (fun col =>
    match field_index.lookup col with
    | none => throw (.keyErr col)
    | some i => pure i)
  let fields := indices.map (fun idx => all_fields.getD idx ⟨"", "", false⟩)
  if selection.joined = [] then
    let sel := _merge_fields selection name [] fields
    pure { sel with data := select_from db name columns }
  else
    let on_ := (fields.filter (fun f =>
        f.is_key && (selection.field_index.lookup f.name).isSome)).map (fun f => f.name)
    let fields' := fields.filter (fun f => f.name ∉ on_)
    let cols := fields'.map (fun f => f.name)
    if on_ = [] then
      throw (.tsqlErr "no shared keys for joining")
    let right := (List.zip (select_from db name on_) (select_from db name cols)).foldl
      (fun r p => setdefaultApp r p.1 p.2) []
    let rfill := List.replicate fields'.length TValue.null
    let pairs := List.zip (selection.selectCols on_) (selection.selectCols [])
    let data := pairs.foldl
      (fun acc (p : List TValue × List TValue) =>
        if how = "left" ∨ (right.lookup p.1).isSome then
          acc ++ ((right.lookup p.1).getD [rfill]).map (fun rrow => p.2 ++ rrow)
        else acc)
      []
    let sel := _merge_fields selection name on_ fields'
    pure { sel with data := data }

/-- `_make_execution_plan`: resolve the projection and condition columns
and plan the joins. -/
def _make_execution_plan (projection relations : List String) (condition : Option Condition)
    (db : Database) :
    Except QErr (List String × List (String × List String) × Option Condition) := do
  let schema_map := _make_schema_map db relations
  let projection ← if projection = ["*"] then _project_all relations db
                   else projection.mapM (resolve_qname schema_map)
  let r ← match condition with
    | none => pure ((none : Option Condition), ([] : List String))
    | some c => do
      let r ← _process_condition_fields (resolve_qname schema_map) c
      pure (some r.1, r.2)
  let joins ← _plan_joins projection r.2 relations db
  pure (projection, joins, r.1)

/-- `_select`: plan, join the relations in order, filter by the compiled
condition, and store the projection. -/
def _select (projection relations : List String) (condition : Option Condition)
    (db : Database) : Except QErr Selection := do
  let (proj, joins, cond) ← _make_execution_plan projection relations condition db
  let selection ← joins.foldlM
    (fun sel (j : String × List String) => _join sel db j.1 j.2 "inner")
    Selection.empty
  let selection := match cond with
    | some c =>
      { selection with
        data := selection.data.filter (fun row => evalCondition selection.field_index c row) }
    | none => selection
  pure { selection with projection := some proj }

/-- The `select` entry point: parse a select-query body and execute it. -/
def select (querystring : String) (db : Database) : Except QErr Selection := do
  let q ← _parse_select querystring
  _select q.projection q.relations q.condition db

/-- The `query` entry point: parse a full query (with its leading
`select`/`retrieve` keyword) and execute it. -/
def query (querystring : String) (db : Database) : Except QErr Selection := do
  let q ← _parse_query querystring
  _select q.projection q.relations q.condition db

/-! ### Test fixtures -/

/-- A one-relation database: `item` with integer key `i-id` and string
column `i-input`. -/
def itemDatabase : Database :=
  { schema := [("item", [⟨"i-id", ":integer", true⟩, ⟨"i-input", ":string", false⟩])],
    data := [("item", [[.int 1, .str "dog"], [.int 10, .str "cat"], [.int 20, .str "dig"]])] }

/-- The spec's pivot schema: `R1` with key `a`, `R2` with keys `a` and
`b`, `R3` with key `b`. -/
def pivotDatabase : Database :=
  { schema := [("R1", [⟨"a", ":integer", true⟩, ⟨"x", ":string", false⟩]),
               ("R2", [⟨"a", ":integer", true⟩, ⟨"b", ":integer", true⟩]),
               ("R3", [⟨"b", ":integer", true⟩, ⟨"y", ":string", false⟩])],
    data := [("R1", []), ("R2", []), ("R3", [])] }

/-- The pivot schema with the bridging relation `R2` removed. -/
def pivotDatabaseNoR2 : Database :=
  { schema := [("R1", [⟨"a", ":integer", true⟩, ⟨"x", ":string", false⟩]),
               ("R3", [⟨"b", ":integer", true⟩, ⟨"y", ":string", false⟩])],
    data := [("R1", []), ("R3", [])] }

/-- A thrown error short-circuits an `Except` bind. -/
theorem throw_bind {α β : Type} (e : QErr) (f : α → Except QErr β) :
    (throw e : Except QErr α) >>= f = .error e := rfl

/-! ### The claims -/

/-- Claim C1, counterexample: on the pivot schema, a query that references
`R3` first (projection `R3.y`, relations `R1 R3`) names/references exactly
`R1` and `R3`, yet the planner joins in the order `R3, R2, R1` — the pivot
`R2` does *not* precede `R3` as the claim requires. -/
theorem claim_C1_counterexample :
    _plan_joins ["R3.y"] [] ["R1", "R3"] pivotDatabase
      = .ok [("R3", ["y", "b"]), ("R2", ["a", "b"]), ("R1", ["a"])] ∧
    ¬ (["R3", "R2", "R1"].indexOf "R2" < ["R3", "R2", "R1"].indexOf "R3") :=
  ⟨rfl, by decide⟩

/-- Claim C1, amended: on the pivot schema, a query naming/referencing
exactly `R1` and `R3` makes the planner add `R2` as a pivot and join it
second, immediately after whichever of `R1`/`R3` the query references
first; `R2` precedes `R3` exactly when `R1` is referenced first.  With
`R2` removed, planning raises the "could not find relation to join"
engine error. -/
theorem claim_C1_amended :
    _pivot_relations ["R1", "R3"] (_make_keymap pivotDatabase) = .ok ["R2"] ∧
    _plan_joins ["R1.x"] [] ["R1", "R3"] pivotDatabase
      = .ok [("R1", ["x", "a"]), ("R2", ["a", "b"]), ("R3", ["b"])] ∧
    _plan_joins ["R3.y"] [] ["R1", "R3"] pivotDatabase
      = .ok [("R3", ["y", "b"]), ("R2", ["a", "b"]), ("R1", ["a"])] ∧
    _plan_joins ["R1.x"] [] ["R1", "R3"] pivotDatabaseNoR2
      = .error (.tsqlErr "could not find relation to join: R1, R3") :=
  ⟨rfl, rfl, rfl, rfl⟩

/-- Claim C2, counterexample: the query `select i-id from item item` names
`item` twice in its `from` clause, yet executing it succeeds and returns
every row — it does not fail with the duplicate-join error. -/
theorem claim_C2_counterexample :
    (query "select i-id from item item" itemDatabase).map Selection.resultRows
      = .ok [[.int 1], [.int 10], [.int 20]] :=
  rfl

/-- Claim C2, amended: a query naming the same relation twice in its
`from` clause executes successfully, because the planner collapses the
relation list into a set and keys the join map by relation name, joining
the relation only once; the engine error "cannot join the same relation
twice" is raised by `_join` exactly when it is asked to join a relation
already recorded in the selection's joined set. -/
theorem claim_C2_amended :
    (query "select i-id from item item" itemDatabase).map Selection.resultRows
      = .ok [[.int 1], [.int 10], [.int 20]] ∧
    ∀ (sel : Selection) (db : Database) (name : String) (columns : List String)
      (how : String), (how = "inner" ∨ how = "left") → name ∈ sel.joined →
      _join sel db name columns how = .error (.tsqlErr "cannot join the same relation twice") := by
  refine ⟨rfl, ?_⟩
  intro sel db name columns how hhow hmem
  rcases hhow with h | h <;> subst h <;> simp [_join, hmem, throw_bind]

/-- Claim C2, witness: `_join` on a selection that has already joined
`item` fails with the duplicate-join error. -/
theorem claim_C2_witness :
    _join ⟨[], [], [], none, ["item"]⟩ itemDatabase "item" [] "inner"
      = .error (.tsqlErr "cannot join the same relation twice") :=
  claim_C2_amended.2 ⟨[], [], [], none, ["item"]⟩ itemDatabase "item" [] "inner"
    (Or.inl rfl) (by simp)

/-- The query object both condition strings of claim C3 parse to. -/
def c3Query : Query :=
  { projection := ["i-id"], relations := ["item"],
    condition := some (.boolean "or"
      [.comparison "==" "i-id" (.int 10),
       .boolean "and"
         [.comparison "==" "i-id" (.int 20),
          .comparison "~" "i-input" (.str "[Dd]og")]]) }

set_option maxHeartbeats 1000000 in
/-- Claim C3: the where clause `i-id = 10 or i-id = 20 and i-input ~
"[Dd]og"` parses to exactly the same condition AST as its explicitly
parenthesized form `i-id = 10 or (i-id = 20 and i-input ~ "[Dd]og")`:
conjunction binds tighter than disjunction (both parses yield `c3Query`). -/
theorem claim_C3 :
    _parse_select "i-id from item where i-id = 10 or i-id = 20 and i-input ~ \"[Dd]og\""
      = .ok c3Query ∧
    _parse_select "i-id from item where i-id = 10 or (i-id = 20 and i-input ~ \"[Dd]og\")"
      = .ok c3Query :=
  ⟨rfl, rfl⟩

/-- Claim C10: a column name carrying a relation qualifier is returned by
the resolver as-is, without consulting the schema — so a qualified name
whose relation does not exist resolves without the "undefined column"
engine error, and the query instead fails later with a plain lookup
(`KeyError`) failure when the planner looks the relation up, an error
outside the documented taxonomy (in particular not a `TSQLError`). -/
theorem claim_C10 :
    (∀ (schema_map : List (String × List String)) (colname : String),
      (rpartitionDot colname).1 ≠ "" → resolve_qname schema_map colname = .ok colname) ∧
    resolve_qname (_make_schema_map itemDatabase ["item"]) "bogus.col" = .ok "bogus.col" ∧
    query "select bogus.col from item" itemDatabase = .error (.keyErr "bogus") ∧
    (∀ msg, QErr.keyErr "bogus" ≠ .tsqlErr msg) := by
  refine ⟨?_, rfl, rfl, ?_⟩
  · intro schema_map colname h
    simp only [resolve_qname]
    rw [if_pos h]
    rfl
  · intro msg h
    cases h

/-- Claim C10, witness: the qualified name `bogus.col` passes name
resolution unchanged even against an empty schema map. -/
theorem claim_C10_witness :
    resolve_qname [] "bogus.col" = .ok "bogus.col" :=
  claim_C10.1 [] "bogus.col" (by decide)

/-- Mapping over a thrown `Except` error leaves the error. -/
theorem map_throw {ε α β : Type} (e : ε) (f : α → β) :
    (f <$> (throw e : Except ε α)) = .error e := rfl

/-- Mapping over a pure `Except` value applies the function. -/
theorem map_pure_ex {ε α β : Type} (a : α) (f : α → β) :
    (f <$> (pure a : Except ε α)) = .ok (f a) := rfl

/-- Claim C8: in `_parse_condition_statement`, after a `~`/`!~` operator
only a quoted-string literal token is accepted; after an ordering operator
only an integer or date literal; after `==`/`=`/`!=` an integer, string,
or date literal; any other literal token type there is rejected, and every
rejection is a syntax error. -/
theorem claim_C8 (op : String) (tk : Token) (rest : List Token) (col : String) :
    ((op = "~" ∨ op = "!~") →
      ((_parse_condition_statement col (⟨.OP, op⟩ :: tk :: rest)).isOk = true ↔
        (tk.typ = .DQSTRING ∨ tk.typ = .SQSTRING))) ∧
    ((op = "<" ∨ op = "<=" ∨ op = ">" ∨ op = ">=") →
      ((_parse_condition_statement col (⟨.OP, op⟩ :: tk :: rest)).isOk = true ↔
        (tk.typ = .INT ∨ tk.typ = .YYYYMMDD ∨ tk.typ = .DDMMYY ∨ tk.typ = .KWDATE))) ∧
    ((op = "==" ∨ op = "=" ∨ op = "!=") →
      ((_parse_condition_statement col (⟨.OP, op⟩ :: tk :: rest)).isOk = true ↔
        (tk.typ = .INT ∨ tk.typ = .DQSTRING ∨ tk.typ = .SQSTRING ∨
         tk.typ = .YYYYMMDD ∨ tk.typ = .DDMMYY ∨ tk.typ = .KWDATE))) ∧
    ((_parse_condition_statement col (⟨.OP, op⟩ :: tk :: rest)).isOk = false →
      ∃ msg, _parse_condition_statement col (⟨.OP, op⟩ :: tk :: rest)
        = .error (.syntaxErr msg)) := by
  obtain ⟨t, v⟩ := tk
  refine ⟨?_, ?_, ?_, ?_⟩
  · rintro (rfl | rfl) <;> cases t <;>
      first
      | exact iff_of_true rfl (by simp)
      | exact iff_of_false (fun hh => nomatch hh) (by simp)
  · rintro (rfl | rfl | rfl | rfl) <;> cases t <;>
      first
      | exact iff_of_true rfl (by simp)
      | exact iff_of_false (fun hh => nomatch hh) (by simp)
  · rintro (rfl | rfl | rfl) <;> cases t <;>
      first
      | exact iff_of_true rfl (by simp)
      | exact iff_of_false (fun hh => nomatch hh) (by simp)
  · intro h
    refine ⟨"unexpected token", ?_⟩
    by_cases h0 : op = "=" <;>
      by_cases h1 : (if op = "=" then "==" else op) = "~" ∨ (if op = "=" then "==" else op) = "!~" <;>
      by_cases h2 : (if op = "=" then "==" else op) = "<" ∨ (if op = "=" then "==" else op) = "<="
        ∨ (if op = "=" then "==" else op) = ">" ∨ (if op = "=" then "==" else op) = ">=" <;>
      cases t <;>
      simp_all [_parse_condition_statement, expect_type, choice_type, Except.isOk, Except.toBool,
        map_throw, map_pure_ex, pure, Except.pure, Bind.bind, Except.bind]

/-- Claim C8, witness: after `~`, a double-quoted string literal is
accepted. -/
theorem claim_C8_witness :
    (_parse_condition_statement "c" [⟨.OP, "~"⟩, ⟨.DQSTRING, "x"⟩]).isOk = true ↔
      (TokT.DQSTRING = TokT.DQSTRING ∨ TokT.DQSTRING = TokT.SQSTRING) :=
  (claim_C8 "~" ⟨.DQSTRING, "x"⟩ [] "c").1 (Or.inl rfl)

/-- An `ok` value feeds through an `Except` bind. -/
theorem ok_bind {α β : Type} (a : α) (f : α → Except QErr β) :
    (Except.ok a : Except QErr α) >>= f = f a := rfl

/-- An `Except` error short-circuits a bind. -/
theorem error_bind {α β : Type} (e : QErr) (f : α → Except QErr β) :
    (Except.error e : Except QErr α) >>= f = .error e := rfl

/-- A list filtered by a predicate false at one of its members is strictly
shorter. -/
theorem length_filter_lt_of_mem_false {α : Type} (l : List α) (p : α → Bool) (a : α)
    (ha : a ∈ l) (hp : p a = false) : (l.filter p).length < l.length := by
  induction l with
  | nil => cases ha
  | cons b rest ih =>
    rcases List.mem_cons.mp ha with rfl | hmem
    · simp only [List.filter_cons, hp, Bool.false_eq_true, if_false]
      exact Nat.lt_succ_of_le (List.length_filter_le _ _)
    · cases hb : p b
      · simp only [List.filter_cons, hb, Bool.false_eq_true, if_false]
        exact Nat.lt_succ_of_lt (ih hmem)
      · simp only [List.filter_cons, hb, if_true, List.length_cons]
        exact Nat.succ_lt_succ (ih hmem)

/-- Appending a single element to the searched list extends `contains` by
one comparison. -/
theorem contains_append_singleton (l : List String) (a b : String) :
    (l ++ [b]).contains a = (l.contains a || a == b) := by
  induction l with
  | nil => cases hab : a == b <;> simp [List.contains, List.elem, hab]
  | cons x xs ih =>
    cases hax : a == x <;>
      simp only [List.cons_append, List.contains, List.elem, hax] <;>
      simp_all [List.contains]

/-- An effectful fold whose step never reports fuel exhaustion does not
report fuel exhaustion. -/
theorem foldlM_ne_outOfFuel {α β : Type} (f : β → α → Except QErr β)
    (hf : ∀ b a, f b a ≠ .error .outOfFuel) :
    ∀ (l : List α) (b : β), l.foldlM f b ≠ .error .outOfFuel := by
  intro l
  induction l with
  | nil => intro b hh; exact nomatch hh
  | cons a rest ih =>
    intro b
    simp only [List.foldlM]
    cases hfb : f b a with
    | error e =>
      rw [error_bind]
      intro hh
      injection hh with h1
      exact hf b a (by rw [hfb, h1])
    | ok b' =>
      rw [ok_bind]
      exact ih b'

/-- The join-ordering loop of `_plan_joins` never exhausts a budget of one
step per pending relation plus one: each iteration pops a pending relation
or fails with one of its explicit errors. -/
theorem joinLoop_ne_outOfFuel (n : Nat) :
    ∀ (keymap : List (String × List String)) (joined_keys : List String)
      (joins joinmap : List (String × List String)),
      joinmap.length < n →
      joinLoop n keymap joined_keys joins joinmap ≠ .error .outOfFuel := by
  induction n with
  | zero => intro _ _ _ jm h; omega
  | succ n ih =>
    intro keymap jk joins jm h
    by_cases hjm : jm = []
    · simp only [joinLoop, if_pos hjm]
      exact fun hh => nomatch hh
    · cases hfind : jm.find? (fun rk => joins.isEmpty || interNonempty jk rk.2) with
      | none =>
        simp only [joinLoop, if_neg hjm, hfind]
        exact fun hh => nomatch hh
      | some rk =>
        cases hkm : keymap.lookup rk.1 with
        | none =>
          simp only [joinLoop, if_neg hjm, hfind, hkm]
          exact fun hh => nomatch hh
        | some keys =>
          simp only [joinLoop, if_neg hjm, hfind, hkm]
          apply ih
          have hmem : rk ∈ jm := List.mem_of_find?_eq_some hfind
          have hlt : (popKey jm rk.1).length < jm.length :=
            length_filter_lt_of_mem_false jm _ rk hmem (by simp)
          omega

/-- The pivot-search loop of `_pivot_relations` never exhausts a budget of
one step per key-map relation not yet selected, plus one: each iteration
adds a fresh relation to the pivots or fails with its explicit error. -/
theorem pivotLoop_ne_outOfFuel (n : Nat) :
    ∀ (relset : List String) (keymap : List (String × List String))
      (nodes : List String) (edges : List (String × String)) (pivots : List String),
      (keymap.filter (fun rk => !(relset.contains rk.1) && !(pivots.contains rk.1))).length < n →
      pivotLoop n relset keymap nodes edges pivots ≠ .error .outOfFuel := by
  induction n with
  | zero => intro _ _ _ _ _ h; omega
  | succ n ih =>
    intro relset keymap nodes edges pivots h
    by_cases hc : (_connected_components nodes edges).length ≤ 1
    · simp only [pivotLoop, if_pos hc]
      exact fun hh => nomatch hh
    · cases hfind : keymap.find? (fun rk =>
          !(relset.contains rk.1) && !(pivots.contains rk.1) &&
          decide (rk.2.length > 1) &&
          decide (((_connected_components nodes edges).countP
            (fun c => interNonempty c rk.2)) > 1)) with
      | none =>
        simp only [pivotLoop, if_neg hc, hfind]
        exact fun hh => nomatch hh
      | some rk =>
        simp only [pivotLoop, if_neg hc, hfind]
        apply ih
        have hmem : rk ∈ keymap := List.mem_of_find?_eq_some hfind
        have hpred := List.find?_some hfind
        have hsel : (!(relset.contains rk.1) && !(pivots.contains rk.1)) = true := by
          simp only [Bool.and_assoc, Bool.and_eq_true] at hpred
          simp only [Bool.and_eq_true]
          exact ⟨hpred.1, hpred.2.1⟩
        have hrw : keymap.filter
              (fun kv => !(relset.contains kv.1) && !((pivots ++ [rk.1]).contains kv.1))
            = (keymap.filter
                (fun kv => !(relset.contains kv.1) && !(pivots.contains kv.1))).filter
              (fun kv => !(kv.1 == rk.1)) := by
          rw [List.filter_filter]
          apply List.filter_congr
          intro kv _
          rw [contains_append_singleton]
          cases relset.contains kv.1 <;> cases pivots.contains kv.1 <;>
            cases kv.1 == rk.1 <;> rfl
        rw [hrw]
        have hstep := length_filter_lt_of_mem_false
          (keymap.filter (fun kv => !(relset.contains kv.1) && !(pivots.contains kv.1)))
          (fun kv => !(kv.1 == rk.1)) rk (List.mem_filter.mpr ⟨hmem, hsel⟩) (by simp)
        omega
/-- A bind of fuel-clean computations is fuel-clean. -/
theorem bind_ne_outOfFuel {α β : Type} (x : Except QErr α) (f : α → Except QErr β)
    (hx : x ≠ .error .outOfFuel) (hf : ∀ a, f a ≠ .error .outOfFuel) :
    (x >>= f) ≠ .error .outOfFuel := by
  cases x with
  | error e =>
    rw [error_bind]
    intro hh
    injection hh with h1
    exact hx (by rw [h1])
  | ok a =>
    rw [ok_bind]
    exact hf a

/-- Claim C9: the planner's two fixed-point loops terminate within a step
budget linear in the relation count — `_pivot_relations` runs its pivot
search with budget one step per key-map relation plus one, `_plan_joins`
its join-ordering loop with one step per pending relation plus one, and
neither ever exhausts that budget: every iteration either adds a pivot
relation, removes a pending relation, or raises the loop's explicit
fatal error. -/
theorem claim_C9 :
    (∀ (relset : List String) (keymap : List (String × List String)),
      _pivot_relations relset keymap ≠ .error .outOfFuel) ∧
    (∀ (projection condition_fields relations : List String) (db : Database),
      _plan_joins projection condition_fields relations db ≠ .error .outOfFuel) := by
  have hpiv : ∀ (relset : List String) (keymap : List (String × List String)),
      _pivot_relations relset keymap ≠ .error .outOfFuel := by
    intro relset keymap
    unfold _pivot_relations
    apply bind_ne_outOfFuel
    · apply foldlM_ne_outOfFuel
      intro b a
      cases hl : keymap.lookup a with
      | none => simp only [hl]; exact fun hh => nomatch hh
      | some keys => simp only [hl]; exact fun hh => nomatch hh
    · intro init
      apply pivotLoop_ne_outOfFuel
      exact Nat.lt_succ_of_le (List.length_filter_le _ _)
  refine ⟨hpiv, ?_⟩
  intro projection condition_fields relations db
  unfold _plan_joins
  apply bind_ne_outOfFuel
  · exact hpiv _ _
  · intro pivots
    apply bind_ne_outOfFuel
    · apply foldlM_ne_outOfFuel
      intro b a
      cases hl : db.schema.lookup a with
      | none => simp only [hl]; exact fun hh => nomatch hh
      | some fields => simp only [hl]; exact fun hh => nomatch hh
    · intro joinmap
      apply joinLoop_ne_outOfFuel
      exact Nat.lt_succ_self _

/-- Boolean equality of equal strings. -/
theorem beqT {a b : String} (h : a = b) : (a == b) = true := by subst h; simp

/-- Boolean equality of distinct strings. -/
theorem beqF {a b : String} (h : a ≠ b) : (a == b) = false := by
  cases hb : a == b
  · rfl
  · exact absurd (by simpa using hb) h

/-- Looking a key up after `setdefaultApp`: the updated key gains `v` at
the end of its (possibly fresh) list, other keys are unaffected. -/
theorem lookup_setdefaultApp (m : List (String × List String)) (k : String)
    (v : String) (k' : String) :
    (setdefaultApp m k v).lookup k'
      = if k' = k then some (((m.lookup k').getD []) ++ [v]) else m.lookup k' := by
  induction m with
  | nil =>
    by_cases hk : k' = k
    · simp [setdefaultApp, List.lookup, beqT hk, hk]
    · simp [setdefaultApp, List.lookup, beqF hk, hk]
  | cons a rest ih =>
    obtain ⟨k₀, vs⟩ := a
    by_cases h0 : k₀ = k
    · subst h0
      by_cases h1 : k' = k₀
      · simp [setdefaultApp, List.lookup, beqT h1, h1]
      · simp [setdefaultApp, List.lookup, beqF h1, h1]
    · by_cases h1 : k' = k₀
      · have hne : k' ≠ k := by rw [h1]; exact h0
        simp [setdefaultApp, h0, List.lookup, beqT h1, if_neg hne]
      · simp [setdefaultApp, h0, List.lookup, beqF h1, ih]

/-- Looking up in a map whose values have been rewritten pointwise. -/
theorem lookup_map_snd (m : List (String × List String))
    (g : List String → List String) (col : String) :
    ((m.map (fun kv => (kv.1, g kv.2))).lookup col) = (m.lookup col).map g := by
  induction m with
  | nil => simp
  | cons a rest ih =>
    by_cases h : col = a.1
    · simp [List.lookup, beqT h]
    · simp [List.lookup, beqF h, ih]

/-- The inner field fold of `_make_schema_map` has an entry for a column
iff the accumulator had one or some folded field bears the name. -/
theorem lookup_fieldsFold_isSome (fields : List Field) (rel : String) :
    ∀ (m : List (String × List String)) (col : String),
      (((fields.foldl (fun m f => setdefaultApp m f.name rel) m).lookup col).isSome
        ↔ (m.lookup col).isSome ∨ ∃ f ∈ fields, f.name = col) := by
  induction fields with
  | nil => simp
  | cons f fs ih =>
    intro m col
    rw [List.foldl_cons, ih, lookup_setdefaultApp]
    by_cases hc : col = f.name
    · simp [hc]
    · simp only [if_neg hc]
      constructor
      · rintro (h | h)
        · exact Or.inl h
        · exact Or.inr (by rcases h with ⟨g, hg, hn⟩; exact ⟨g, List.mem_cons_of_mem _ hg, hn⟩)
      · rintro (h | ⟨g, hg, hn⟩)
        · exact Or.inl h
        · rcases List.mem_cons.mp hg with rfl | hg'
          · exact absurd hn (fun hh => hc hh.symm)
          · exact Or.inr ⟨g, hg', hn⟩

/-- The schema fold of `_make_schema_map` has an entry for a column iff
the accumulator had one or some relation's fields contain the name. -/
theorem lookup_schemaFold_isSome (schema : List (String × List Field)) :
    ∀ (m : List (String × List String)) (col : String),
      (((schema.foldl (fun m rf =>
            rf.2.foldl (fun m f => setdefaultApp m f.name rf.1) m) m).lookup col).isSome
        ↔ (m.lookup col).isSome ∨ ∃ rf ∈ schema, ∃ f ∈ rf.2, f.name = col) := by
  induction schema with
  | nil => simp
  | cons rf rest ih =>
    intro m col
    rw [List.foldl_cons, ih, lookup_fieldsFold_isSome]
    constructor
    · rintro ((h | h) | h)
      · exact Or.inl h
      · exact Or.inr ⟨rf, List.mem_cons_self _ _, h⟩
      · rcases h with ⟨g, hg, hf⟩
        exact Or.inr ⟨g, List.mem_cons_of_mem _ hg, hf⟩
    · rintro (h | ⟨g, hg, hf⟩)
      · exact Or.inl (Or.inl h)
      · rcases List.mem_cons.mp hg with rfl | hg'
        · exact Or.inl (Or.inr hf)
        · exact Or.inr ⟨g, hg', hf⟩

/-- `setdefaultApp` preserves "every stored list is nonempty". -/
theorem setdefaultApp_nonempty (m : List (String × List String)) (k v : String)
    (hm : ∀ c w, m.lookup c = some w → w ≠ []) :
    ∀ c w, (setdefaultApp m k v).lookup c = some w → w ≠ [] := by
  intro c w hw
  rw [lookup_setdefaultApp] at hw
  by_cases hc : c = k
  · rw [if_pos hc] at hw
    injection hw with hw
    intro hnil
    rw [← hw] at hnil
    exact absurd hnil (by simp)
  · rw [if_neg hc] at hw
    exact hm c w hw

/-- The field fold preserves "every stored list is nonempty". -/
theorem fieldsFold_nonempty (fields : List Field) (rel : String) :
    ∀ (m : List (String × List String)),
      (∀ c w, m.lookup c = some w → w ≠ []) →
      ∀ c w, ((fields.foldl (fun m f => setdefaultApp m f.name rel) m).lookup c)
        = some w → w ≠ [] := by
  induction fields with
  | nil => intro m hm; exact hm
  | cons f fs ih =>
    intro m hm
    rw [List.foldl_cons]
    exact ih _ (setdefaultApp_nonempty m f.name rel hm)

/-- The schema fold preserves "every stored list is nonempty". -/
theorem schemaFold_nonempty (schema : List (String × List Field)) :
    ∀ (m : List (String × List String)),
      (∀ c w, m.lookup c = some w → w ≠ []) →
      ∀ c w, ((schema.foldl (fun m rf =>
          rf.2.foldl (fun m f => setdefaultApp m f.name rf.1) m) m).lookup c)
        = some w → w ≠ [] := by
  induction schema with
  | nil => intro m hm; exact hm
  | cons rf rest ih =>
    intro m hm
    rw [List.foldl_cons]
    exact ih _ (fieldsFold_nonempty rf.2 rf.1 m hm)

/-- The head of a preference-reordered candidate list lies in *relations*
whenever any candidate does. -/
theorem reorder_head_pref (relations cands : List String) (r : String) (rest : List String)
    (heq : cands.filter (fun c => relations.contains c)
        ++ cands.filter (fun c => !relations.contains c) = r :: rest)
    (hex : ∃ c ∈ r :: rest, c ∈ relations) : r ∈ relations := by
  cases hf : cands.filter (fun c => relations.contains c) with
  | nil =>
    rw [hf, List.nil_append] at heq
    rcases hex with ⟨c, hc, hcr⟩
    rw [← heq] at hc
    have := (List.mem_filter.mp hc).2
    simp at this
    exact absurd hcr this
  | cons r₀ rest₀ =>
    rw [hf] at heq
    have hr : r = r₀ := by
      have := congrArg List.head? heq
      simpa using this.symm
    have hmem : r₀ ∈ cands.filter (fun c => relations.contains c) := by
      rw [hf]; exact List.mem_cons_self _ _
    have := (List.mem_filter.mp hmem).2
    rw [hr]
    simpa using this

/-- A string without a dot is unqualified: `rpartition` yields an empty
relation part and the whole string as the column. -/
theorem rpartitionDot_no_dot (s : String) (h : ¬ '.' ∈ s.data) :
    rpartitionDot s = ("", s) := by
  have hd : s.data.reverse.dropWhile (fun c => decide (c ≠ '.')) = [] := by
    rw [List.dropWhile_eq_nil_iff]
    intro x hx
    simp only [ne_eq, decide_eq_true_eq]
    intro hx'
    exact h (by rw [hx'] at hx; exact List.mem_reverse.mp hx)
  unfold rpartitionDot
  simp only [List.span_eq_take_drop, hd]

/-- Claim C6: for an unqualified column name (no dot), if no relation of
the database schema has a field of that name, name resolution fails with
the "undefined column" engine error; otherwise it qualifies the name with
the first candidate relation of the schema map, and that candidate lies
in the query's named relations whenever any candidate does. -/
theorem claim_C6 (db : Database) (relations : List String) (colname : String)
    (hnd : ¬ '.' ∈ colname.data) :
    ((∀ rf ∈ db.schema, ∀ f ∈ rf.2, f.name ≠ colname) →
      resolve_qname (_make_schema_map db relations) colname
        = .error (.tsqlErr ("undefined column: " ++ colname))) ∧
    ((∃ rf ∈ db.schema, ∃ f ∈ rf.2, f.name = colname) →
      ∃ r rest, (_make_schema_map db relations).lookup colname = some (r :: rest) ∧
        resolve_qname (_make_schema_map db relations) colname = .ok (r ++ "." ++ colname) ∧
        ((∃ c ∈ r :: rest, c ∈ relations) → r ∈ relations)) := by
  have hpart := rpartitionDot_no_dot colname hnd
  have hmap := lookup_map_snd
    (db.schema.foldl (fun m rf =>
      rf.2.foldl (fun m f => setdefaultApp m f.name rf.1) m)
      ([] : List (String × List String)))
    (fun rels => rels.filter (fun r => relations.contains r)
      ++ rels.filter (fun r => !relations.contains r))
    colname
  have hmap' : (_make_schema_map db relations).lookup colname
      = ((db.schema.foldl (fun m rf =>
          rf.2.foldl (fun m f => setdefaultApp m f.name rf.1) m)
          ([] : List (String × List String))).lookup colname).map
        (fun rels => rels.filter (fun r => relations.contains r)
          ++ rels.filter (fun r => !relations.contains r)) := hmap
  constructor
  · intro hno
    have hraw : ((db.schema.foldl (fun m rf =>
        rf.2.foldl (fun m f => setdefaultApp m f.name rf.1) m)
          ([] : List (String × List String))).lookup colname) = none := by
      rw [← Option.not_isSome_iff_eq_none, Bool.not_eq_true, ← Bool.not_eq_true,
        lookup_schemaFold_isSome]
      rintro (h | ⟨rf, hrf, f, hf, hname⟩)
      · simp at h
      · exact hno rf hrf f hf hname
    have hlk : (_make_schema_map db relations).lookup colname = none := by
      rw [hmap', hraw]
      rfl
    simp only [resolve_qname, hpart]
    simp only [hlk]
    rfl
  · intro hex
    have hsome : (((db.schema.foldl (fun m rf =>
        rf.2.foldl (fun m f => setdefaultApp m f.name rf.1) m)
          ([] : List (String × List String))).lookup colname)).isSome := by
      rw [lookup_schemaFold_isSome]
      exact Or.inr hex
    obtain ⟨cands, hcands⟩ := Option.isSome_iff_exists.mp hsome
    have hne : cands ≠ [] :=
      schemaFold_nonempty db.schema []
        (by intro c w hw; exact absurd hw (by simp)) colname cands hcands
    obtain ⟨c0, crest, rfl⟩ := List.exists_cons_of_ne_nil hne
    have hlk : (_make_schema_map db relations).lookup colname
        = some ((c0 :: crest).filter (fun c => relations.contains c)
            ++ (c0 :: crest).filter (fun c => !relations.contains c)) := by
      rw [hmap', hcands]
      rfl
    have hreordne : ((c0 :: crest).filter (fun c => relations.contains c)
        ++ (c0 :: crest).filter (fun c => !relations.contains c)) ≠ [] := by
      intro hnil
      rw [List.append_eq_nil] at hnil
      cases hc : relations.contains c0
      · exact List.ne_nil_of_mem
          (List.mem_filter.mpr ⟨List.mem_cons_self _ _, by rw [hc]; rfl⟩) hnil.2
      · exact List.ne_nil_of_mem
          (List.mem_filter.mpr ⟨List.mem_cons_self _ _, hc⟩) hnil.1
    obtain ⟨r, rest, hrr⟩ := List.exists_cons_of_ne_nil hreordne
    refine ⟨r, rest, ?_, ?_, ?_⟩
    · rw [hlk, hrr]
    · rw [hrr] at hlk
      simp only [resolve_qname, hpart]
      simp only [hlk]
      rfl
    · intro hexrel
      exact reorder_head_pref relations (c0 :: crest) r rest hrr hexrel

/-- Claim C6, witness: on the item database the bare name `i-id` resolves
to `item.i-id`, and a bare name found in no relation is rejected as an
undefined column. -/
theorem claim_C6_witness :
    resolve_qname (_make_schema_map itemDatabase ["item"]) "i-id" = .ok "item.i-id" ∧
    resolve_qname (_make_schema_map itemDatabase ["item"]) "fake-col"
      = .error (.tsqlErr "undefined column: fake-col") := by
  constructor
  · obtain ⟨r, rest, hl, hres, _⟩ :=
      (claim_C6 itemDatabase ["item"] "i-id" (by decide)).2 (by decide)
    have hl' : (_make_schema_map itemDatabase ["item"]).lookup "i-id" = some ["item"] := rfl
    rw [hl'] at hl
    injection hl with h1
    injection h1 with h2 h3
    rw [← h2] at hres
    exact hres
  · exact (claim_C6 itemDatabase ["item"] "fake-col" (by decide)).1 (by decide)

/-- A one-relation `item` database over the given `(i-id, i-input)` rows. -/
def itemDb (rows : List (Int × String)) : Database :=
  { schema := [("item", [⟨"i-id", ":integer", true⟩, ⟨"i-input", ":string", false⟩])],
    data := [("item", rows.map (fun r => [TValue.int r.1, TValue.str r.2]))] }

set_option maxHeartbeats 2000000 in
/-- Claim C5: on an `item` relation holding integer `i-id` values, the
query `select i-id from item where i-id = 10 or i-id = 20` returns exactly
the rows whose `i-id` is 10 or 20, in source order, for every list of
source rows. -/
theorem claim_C5 (rows : List (Int × String)) :
    (select "i-id from item where i-id = 10 or i-id = 20" (itemDb rows)).map Selection.resultRows
      = .ok ((rows.filter (fun r => decide (r.1 = 10 ∨ r.1 = 20))).map
          (fun r => [TValue.int r.1])) := by
  have hL : (select "i-id from item where i-id = 10 or i-id = 20" (itemDb rows)).map
        Selection.resultRows
      = .ok ((((rows.map (fun r => [TValue.int r.1, TValue.str r.2])).map
          (fun row => [row.getD 0 TValue.null])).filter
          (fun row => evalCondition [("i-id", 0), ("item.i-id", 0)]
            (.boolean "or" [.comparison "==" "item.i-id" (.int 10),
                            .comparison "==" "item.i-id" (.int 20)]) row)).map
          (fun row => [row.getD 0 TValue.null])) := rfl
  have hlist : ∀ (rs : List (Int × String)),
      (((rs.map (fun r => [TValue.int r.1, TValue.str r.2])).map
          (fun row => [row.getD 0 TValue.null])).filter
          (fun row => evalCondition [("i-id", 0), ("item.i-id", 0)]
            (.boolean "or" [.comparison "==" "item.i-id" (.int 10),
                            .comparison "==" "item.i-id" (.int 20)]) row)).map
          (fun row => [row.getD 0 TValue.null])
        = (rs.filter (fun r => decide (r.1 = 10 ∨ r.1 = 20))).map
            (fun r => [TValue.int r.1]) := by
    intro rs
    induction rs with
    | nil => rfl
    | cons r rs ih =>
      by_cases h : (r.1 = 10 ∨ r.1 = 20)
      · rcases h with h | h <;>
          (simp [List.filter_cons, evalCondition, evalCondAny, evalCondAll,
            _operator_functions, List.lookup, h] at ih ⊢; exact ih)
      · push_neg at h
        simp [List.filter_cons, evalCondition, evalCondAny, evalCondAll,
          _operator_functions, List.lookup, h.1, h.2] at ih ⊢
        exact ih
  rw [hL, hlist rows]

/-- One-step fuel monotonicity for the five condition-parser functions: a
successful parse stays identical with one more unit of fuel. -/
theorem parser_mono_step : ∀ n : Nat,
    (∀ l c r, _parse_condition_disjunction n l = .ok (c, r) →
      _parse_condition_disjunction (n + 1) l = .ok (c, r)) ∧
    (∀ acc l c r, parseDisjRest n acc l = .ok (c, r) →
      parseDisjRest (n + 1) acc l = .ok (c, r)) ∧
    (∀ l c r, _parse_condition_conjunction n l = .ok (c, r) →
      _parse_condition_conjunction (n + 1) l = .ok (c, r)) ∧
    (∀ acc l c r, parseConjRest n acc l = .ok (c, r) →
      parseConjRest (n + 1) acc l = .ok (c, r)) ∧
    (∀ l c r, parseCondUnit n l = .ok (c, r) →
      parseCondUnit (n + 1) l = .ok (c, r)) := by
  intro n
  induction n with
  | zero =>
    refine ⟨?_, ?_, ?_, ?_, ?_⟩ <;> intros <;> simp_all [_parse_condition_disjunction,
      parseDisjRest, _parse_condition_conjunction, parseConjRest, parseCondUnit]
  | succ n ih =>
    obtain ⟨ihD, ihDR, ihC, ihCR, ihU⟩ := ih
    refine ⟨?_, ?_, ?_, ?_, ?_⟩
    · intro l c r h
      rw [_parse_condition_disjunction] at h ⊢
      cases hc : _parse_condition_conjunction n l with
      | error e => rw [hc, error_bind] at h; exact absurd h (by simp)
      | ok p =>
        obtain ⟨c₁, l₁⟩ := p
        rw [hc, ok_bind] at h
        rw [ihC _ _ _ hc, ok_bind]
        exact ihDR _ _ _ _ h
    · intro acc l c r h
      rw [parseDisjRest] at h ⊢
      cases ha : accept_type .OR l with
      | none => rw [ha] at h; exact h
      | some p =>
        obtain ⟨v, l'⟩ := p
        rw [ha] at h
        dsimp only at h ⊢
        cases hc : _parse_condition_conjunction n l' with
        | error e => rw [hc, error_bind] at h; exact absurd h (by simp)
        | ok q =>
          obtain ⟨c₁, l₁⟩ := q
          rw [hc, ok_bind] at h
          rw [ihC _ _ _ hc, ok_bind]
          exact ihDR _ _ _ _ h
    · intro l c r h
      rw [_parse_condition_conjunction] at h ⊢
      cases hu : parseCondUnit n l with
      | error e => rw [hu, error_bind] at h; exact absurd h (by simp)
      | ok p =>
        obtain ⟨c₁, l₁⟩ := p
        rw [hu, ok_bind] at h
        rw [ihU _ _ _ hu, ok_bind]
        exact ihCR _ _ _ _ h
    · intro acc l c r h
      rw [parseConjRest] at h ⊢
      cases ha : accept_type .AND l with
      | none => rw [ha] at h; exact h
      | some p =>
        obtain ⟨v, l'⟩ := p
        rw [ha] at h
        dsimp only at h ⊢
        cases hu : parseCondUnit n l' with
        | error e => rw [hu, error_bind] at h; exact absurd h (by simp)
        | ok q =>
          obtain ⟨c₁, l₁⟩ := q
          rw [hu, ok_bind] at h
          rw [ihU _ _ _ hu, ok_bind]
          exact ihCR _ _ _ _ h
    · intro l c r h
      rw [parseCondUnit] at h ⊢
      cases hch : choice_type [.NOT, .LPAREN, .QID, .ID] l with
      | error e => rw [hch, error_bind] at h; exact absurd h (by simp)
      | ok p =>
        obtain ⟨tok, l₁⟩ := p
        rw [hch, ok_bind] at h
        rw [ok_bind]
        obtain ⟨t, v⟩ := tok
        cases t <;> dsimp only at h ⊢ <;> try exact h
        · cases hd : _parse_condition_disjunction n l₁ with
          | error e => rw [hd, error_bind] at h; exact absurd h (by simp)
          | ok q =>
            obtain ⟨c₁, l₂⟩ := q
            rw [hd, ok_bind] at h
            rw [ihD _ _ _ hd, ok_bind]
            exact h
        · cases hd : _parse_condition_disjunction n l₁ with
          | error e => rw [hd, error_bind] at h; exact absurd h (by simp)
          | ok q =>
            obtain ⟨c₁, l₂⟩ := q
            rw [hd, ok_bind] at h
            rw [ihD _ _ _ hd, ok_bind]
            exact h

/-- Fuel monotonicity (≤ form) for the disjunction parser. -/
theorem disj_mono {n m : Nat} (hnm : n ≤ m) {l : List Token} {c : Condition}
    {r : List Token} (h : _parse_condition_disjunction n l = .ok (c, r)) :
    _parse_condition_disjunction m l = .ok (c, r) := by
  obtain ⟨k, rfl⟩ := Nat.exists_eq_add_of_le hnm
  induction k with
  | zero => exact h
  | succ k ih => exact (parser_mono_step (n + k)).1 _ _ _ (ih (Nat.le_add_right n k))

/-- Fuel monotonicity (≤ form) for the condition-unit parser. -/
theorem unit_mono {n m : Nat} (hnm : n ≤ m) {l : List Token} {c : Condition}
    {r : List Token} (h : parseCondUnit n l = .ok (c, r)) :
    parseCondUnit m l = .ok (c, r) := by
  obtain ⟨k, rfl⟩ := Nat.exists_eq_add_of_le hnm
  induction k with
  | zero => exact h
  | succ k ih => exact (parser_mono_step (n + k)).2.2.2.2 _ _ _ (ih (Nat.le_add_right n k))

/-- A successful `accept` survives appending a suffix to the stream. -/
theorem accept_type_append_some {t : TokT} {l : List Token} {v : String}
    {l₁ : List Token} (s : List Token) (h : accept_type t l = some (v, l₁)) :
    accept_type t (l ++ s) = some (v, l₁ ++ s) := by
  cases l with
  | nil => exact absurd h (by simp [accept_type])
  | cons tok rest =>
    by_cases ht : tok.typ = t <;> simp_all [accept_type]

/-- A failing `accept` on a nonempty stream still fails after appending. -/
theorem accept_type_append_none {t : TokT} {l : List Token} (s : List Token)
    (h : accept_type t l = none) (hl : l ≠ []) :
    accept_type t (l ++ s) = none := by
  cases l with
  | nil => exact absurd rfl hl
  | cons tok rest => by_cases ht : tok.typ = t <;> simp_all [accept_type]

/-- A successful `expect` survives appending a suffix to the stream. -/
theorem expect_type_append {t : TokT} {l : List Token} {v : String}
    {l₁ : List Token} (s : List Token) (h : expect_type t l = .ok (v, l₁)) :
    expect_type t (l ++ s) = .ok (v, l₁ ++ s) := by
  cases l with
  | nil => exact absurd h (by simp [expect_type])
  | cons tok rest =>
    by_cases ht : tok.typ = t <;> simp_all [expect_type, pure, Except.pure]

/-- A successful `choice` survives appending a suffix to the stream. -/
theorem choice_type_append {ts : List TokT} {l : List Token} {tok : Token}
    {l₁ : List Token} (s : List Token) (h : choice_type ts l = .ok (tok, l₁)) :
    choice_type ts (l ++ s) = .ok (tok, l₁ ++ s) := by
  cases l with
  | nil => exact absurd h (by simp [choice_type])
  | cons tk rest =>
    by_cases ht : tk.typ ∈ ts <;> simp_all [choice_type, pure, Except.pure]

/-- A successful comparison-statement parse survives appending a suffix. -/
theorem stmt_append {col : String} {l : List Token} {c : Condition}
    {r : List Token} (s : List Token)
    (h : _parse_condition_statement col l = .ok (c, r)) :
    _parse_condition_statement col (l ++ s) = .ok (c, r ++ s) := by
  unfold _parse_condition_statement at h ⊢
  cases hop : expect_type .OP l with
  | error e => rw [hop, error_bind] at h; exact absurd h (by simp)
  | ok p =>
    obtain ⟨op, l₁⟩ := p
    rw [hop, ok_bind] at h
    rw [expect_type_append s hop, ok_bind]
    dsimp only at h ⊢
    by_cases h1 : ((if op = "=" then "==" else op) = "~" ∨ (if op = "=" then "==" else op) = "!~")
    · rw [if_pos h1] at h ⊢
      cases hch : choice_type [.DQSTRING, .SQSTRING] l₁ with
      | error e => rw [hch, error_bind] at h; exact absurd h (by simp)
      | ok q =>
        obtain ⟨tok, l₂⟩ := q
        rw [hch, ok_bind] at h
        rw [choice_type_append s hch, ok_bind]
        dsimp only at h ⊢
        injection h with h
        injection h with h₁ h₂
        rw [h₁, h₂]
        rfl
    · rw [if_neg h1] at h ⊢
      by_cases h2 : ((if op = "=" then "==" else op) = "<" ∨ (if op = "=" then "==" else op) = "<="
          ∨ (if op = "=" then "==" else op) = ">" ∨ (if op = "=" then "==" else op) = ">=")
      · rw [if_pos h2] at h ⊢
        cases hch : choice_type [.INT, .YYYYMMDD, .DDMMYY, .KWDATE] l₁ with
        | error e => rw [hch, error_bind] at h; exact absurd h (by simp)
        | ok q =>
          obtain ⟨tok, l₂⟩ := q
          rw [hch, ok_bind] at h
          rw [choice_type_append s hch, ok_bind]
          dsimp only at h ⊢
          injection h with h
          injection h with h₁ h₂
          rw [h₁, h₂]
          rfl
      · rw [if_neg h2] at h ⊢
        cases hch : choice_type [.INT, .DQSTRING, .SQSTRING, .YYYYMMDD, .DDMMYY, .KWDATE] l₁ with
        | error e => rw [hch, error_bind] at h; exact absurd h (by simp)
        | ok q =>
          obtain ⟨tok, l₂⟩ := q
          rw [hch, ok_bind] at h
          rw [choice_type_append s hch, ok_bind]
          dsimp only at h ⊢
          injection h with h
          injection h with h₁ h₂
          rw [h₁, h₂]
          rfl

/-- The disjunction tail loop consumes nothing on an empty stream. -/
theorem disjRest_nil_rest {n : Nat} {acc : List Condition} {c : Condition}
    {r : List Token} (h : parseDisjRest n acc [] = .ok (c, r)) : r = [] := by
  cases n with
  | zero => exact absurd h (by simp [parseDisjRest])
  | succ n =>
    rw [parseDisjRest] at h
    dsimp only [accept_type] at h
    cases hf : _finish_conds "or" acc with
    | error e => rw [hf, error_bind] at h; exact absurd h (by simp)
    | ok c' =>
      rw [hf, ok_bind] at h
      injection h with h
      injection h with h₁ h₂
      exact h₂.symm

/-- The conjunction tail loop consumes nothing on an empty stream. -/
theorem conjRest_nil_rest {n : Nat} {acc : List Condition} {c : Condition}
    {r : List Token} (h : parseConjRest n acc [] = .ok (c, r)) : r = [] := by
  cases n with
  | zero => exact absurd h (by simp [parseConjRest])
  | succ n =>
    rw [parseConjRest] at h
    dsimp only [accept_type] at h
    cases hf : _finish_conds "and" acc with
    | error e => rw [hf, error_bind] at h; exact absurd h (by simp)
    | ok c' =>
      rw [hf, ok_bind] at h
      injection h with h
      injection h with h₁ h₂
      exact h₂.symm

/-- The side condition for extending a parse with a suffix: if the parse
consumed its whole input, the suffix must not begin with a boolean
connective that the trailing lookahead would have consumed. -/
def noAndOrHead (s : List Token) : Prop :=
  ∀ t, s.head? = some t → t.typ ≠ .AND ∧ t.typ ≠ .OR

/-- Suffix extension for the condition parsers: a successful parse of `l`
is also the parse of `l ++ s`, with the suffix left over, provided the
suffix does not start with `and`/`or` when the parse consumed all of `l`. -/
theorem parser_ext : ∀ n : Nat,
    (∀ l s c r, _parse_condition_disjunction n l = .ok (c, r) → (r = [] → noAndOrHead s) →
      _parse_condition_disjunction n (l ++ s) = .ok (c, r ++ s)) ∧
    (∀ acc l s c r, parseDisjRest n acc l = .ok (c, r) → (r = [] → noAndOrHead s) →
      parseDisjRest n acc (l ++ s) = .ok (c, r ++ s)) ∧
    (∀ l s c r, _parse_condition_conjunction n l = .ok (c, r) → (r = [] → noAndOrHead s) →
      _parse_condition_conjunction n (l ++ s) = .ok (c, r ++ s)) ∧
    (∀ acc l s c r, parseConjRest n acc l = .ok (c, r) → (r = [] → noAndOrHead s) →
      parseConjRest n acc (l ++ s) = .ok (c, r ++ s)) ∧
    (∀ l s c r, parseCondUnit n l = .ok (c, r) → (r = [] → noAndOrHead s) →
      parseCondUnit n (l ++ s) = .ok (c, r ++ s)) := by
  intro n
  induction n with
  | zero =>
    refine ⟨?_, ?_, ?_, ?_, ?_⟩ <;> intros <;> simp_all [_parse_condition_disjunction,
      parseDisjRest, _parse_condition_conjunction, parseConjRest, parseCondUnit]
  | succ n ih =>
    obtain ⟨ihD, ihDR, ihC, ihCR, ihU⟩ := ih
    refine ⟨?_, ?_, ?_, ?_, ?_⟩
    · intro l s c r h hsc
      rw [_parse_condition_disjunction] at h ⊢
      cases hc : _parse_condition_conjunction n l with
      | error e => rw [hc, error_bind] at h; exact absurd h (by simp)
      | ok p =>
        obtain ⟨c₁, l₁⟩ := p
        rw [hc, ok_bind] at h
        have hsc₁ : l₁ = [] → noAndOrHead s := by
          intro hl₁
          rw [hl₁] at h
          exact hsc (disjRest_nil_rest h)
        rw [ihC _ _ _ _ hc hsc₁, ok_bind]
        exact ihDR _ _ _ _ _ h hsc
    · intro acc l s c r h hsc
      rw [parseDisjRest] at h ⊢
      cases ha : accept_type .OR l with
      | none =>
        rw [ha] at h
        cases hf : _finish_conds "or" acc with
        | error e => rw [hf, error_bind] at h; exact absurd h (by simp)
        | ok c' =>
          rw [hf, ok_bind] at h
          injection h with h
          injection h with h₁ h₂
          subst h₁
          subst h₂
          cases l with
          | nil =>
            have hna := hsc rfl
            have haccs : accept_type .OR s = none := by
              cases s with
              | nil => rfl
              | cons t rest =>
                have := (hna t rfl).2
                simp [accept_type, this]
            rw [List.nil_append, haccs]
            rfl
          | cons tok rest =>
            rw [accept_type_append_none s ha (by simp)]
            rfl
      | some p =>
        obtain ⟨v, l'⟩ := p
        rw [ha] at h
        dsimp only at h
        cases hc : _parse_condition_conjunction n l' with
        | error e => rw [hc, error_bind] at h; exact absurd h (by simp)
        | ok q =>
          obtain ⟨c₁, l₁⟩ := q
          rw [hc, ok_bind] at h
          have hsc₁ : l₁ = [] → noAndOrHead s := by
            intro hl₁
            rw [hl₁] at h
            exact hsc (disjRest_nil_rest h)
          rw [accept_type_append_some s ha]
          dsimp only
          rw [ihC _ _ _ _ hc hsc₁, ok_bind]
          exact ihDR _ _ _ _ _ h hsc
    · intro l s c r h hsc
      rw [_parse_condition_conjunction] at h ⊢
      cases hu : parseCondUnit n l with
      | error e => rw [hu, error_bind] at h; exact absurd h (by simp)
      | ok p =>
        obtain ⟨c₁, l₁⟩ := p
        rw [hu, ok_bind] at h
        have hsc₁ : l₁ = [] → noAndOrHead s := by
          intro hl₁
          rw [hl₁] at h
          exact hsc (conjRest_nil_rest h)
        rw [ihU _ _ _ _ hu hsc₁, ok_bind]
        exact ihCR _ _ _ _ _ h hsc
    · intro acc l s c r h hsc
      rw [parseConjRest] at h ⊢
      cases ha : accept_type .AND l with
      | none =>
        rw [ha] at h
        cases hf : _finish_conds "and" acc with
        | error e => rw [hf, error_bind] at h; exact absurd h (by simp)
        | ok c' =>
          rw [hf, ok_bind] at h
          injection h with h
          injection h with h₁ h₂
          subst h₁
          subst h₂
          cases l with
          | nil =>
            have hna := hsc rfl
            have haccs : accept_type .AND s = none := by
              cases s with
              | nil => rfl
              | cons t rest =>
                have := (hna t rfl).1
                simp [accept_type, this]
            rw [List.nil_append, haccs]
            rfl
          | cons tok rest =>
            rw [accept_type_append_none s ha (by simp)]
            rfl
      | some p =>
        obtain ⟨v, l'⟩ := p
        rw [ha] at h
        dsimp only at h
        cases hu : parseCondUnit n l' with
        | error e => rw [hu, error_bind] at h; exact absurd h (by simp)
        | ok q =>
          obtain ⟨c₁, l₁⟩ := q
          rw [hu, ok_bind] at h
          have hsc₁ : l₁ = [] → noAndOrHead s := by
            intro hl₁
            rw [hl₁] at h
            exact hsc (conjRest_nil_rest h)
          rw [accept_type_append_some s ha]
          dsimp only
          rw [ihU _ _ _ _ hu hsc₁, ok_bind]
          exact ihCR _ _ _ _ _ h hsc
    · intro l s c r h hsc
      rw [parseCondUnit] at h ⊢
      cases hch : choice_type [.NOT, .LPAREN, .QID, .ID] l with
      | error e => rw [hch, error_bind] at h; exact absurd h (by simp)
      | ok p =>
        obtain ⟨tok, l₁⟩ := p
        rw [hch, ok_bind] at h
        rw [choice_type_append s hch, ok_bind]
        obtain ⟨t, v⟩ := tok
        match t with
        | .NOT =>
          dsimp only at h ⊢
          cases hd : _parse_condition_disjunction n l₁ with
          | error e => rw [hd, error_bind] at h; exact absurd h (by simp)
          | ok q =>
            obtain ⟨c₁, l₂⟩ := q
            rw [hd, ok_bind] at h
            injection h with h
            injection h with h₁ h₂
            subst h₁
            subst h₂
            rw [ihD _ _ _ _ hd hsc, ok_bind]
            rfl
        | .LPAREN =>
          dsimp only at h ⊢
          cases hd : _parse_condition_disjunction n l₁ with
          | error e => rw [hd, error_bind] at h; exact absurd h (by simp)
          | ok q =>
            obtain ⟨c₁, l₂⟩ := q
            rw [hd, ok_bind] at h
            cases hx : expect_type .RPAREN l₂ with
            | error e => rw [hx, error_bind] at h; exact absurd h (by simp)
            | ok w =>
              obtain ⟨v₂, l₃⟩ := w
              rw [hx, ok_bind] at h
              have hl₂ : l₂ ≠ [] := by
                intro hnil
                rw [hnil] at hx
                exact absurd hx (by simp [expect_type])
              rw [ihD _ _ _ _ hd (fun hh => absurd hh hl₂), ok_bind]
              rw [expect_type_append s hx, ok_bind]
              dsimp only at h ⊢
              injection h with h
              injection h with h₁ h₂
              subst h₁
              subst h₂
              rfl
        | .QID => exact stmt_append s h
        | .ID => exact stmt_append s h
        | .FROM | .WHERE | .REPORT | .STAR | .DOT | .OP | .AND | .OR
        | .RPAREN | .DQSTRING | .SQSTRING | .YYYYMMDD | .DDMMYY | .KWDATE
        | .INT | .UNEXPECTED => exact stmt_append s h

/-- A parse of a single parenthesized or comparison unit survives any
appended suffix: such units end without lookahead. -/
theorem unit_ext_atomic {n : Nat} {tA : List Token} {u : Condition} {r : List Token}
    (s : List Token) {a : Token} (hh : tA.head? = some a)
    (ht : a.typ = .LPAREN ∨ a.typ = .QID ∨ a.typ = .ID)
    (h : parseCondUnit n tA = .ok (u, r)) :
    parseCondUnit n (tA ++ s) = .ok (u, r ++ s) := by
  cases n with
  | zero => exact absurd h (by simp [parseCondUnit])
  | succ n =>
    cases tA with
    | nil => cases hh
    | cons tok rest =>
      injection hh with hh
      subst hh
      rw [parseCondUnit] at h ⊢
      have hch : choice_type [.NOT, .LPAREN, .QID, .ID] (tok :: rest) = .ok (tok, rest) := by
        rcases ht with h1 | h1 | h1 <;> simp [choice_type, h1, pure, Except.pure]
      rw [hch, ok_bind] at h
      rw [choice_type_append s hch, ok_bind]
      dsimp only at h ⊢
      rcases ht with h1 | h1 | h1
      · rw [h1] at h ⊢
        dsimp only at h ⊢
        cases hd : _parse_condition_disjunction n rest with
        | error e => rw [hd, error_bind] at h; exact absurd h (by simp)
        | ok q =>
          obtain ⟨c₁, l₂⟩ := q
          rw [hd, ok_bind] at h
          cases hx : expect_type .RPAREN l₂ with
          | error e => rw [hx, error_bind] at h; exact absurd h (by simp)
          | ok w =>
            obtain ⟨v₂, l₃⟩ := w
            rw [hx, ok_bind] at h
            have hl₂ : l₂ ≠ [] := by
              intro hnil
              rw [hnil] at hx
              exact absurd hx (by simp [expect_type])
            rw [(parser_ext n).1 _ _ _ _ hd (fun hnil => absurd hnil hl₂), ok_bind]
            rw [expect_type_append s hx, ok_bind]
            dsimp only at h ⊢
            injection h with h
            injection h with h₁ h₂
            subst h₁
            subst h₂
            rfl
      · rw [h1] at h ⊢
        dsimp only at h ⊢
        exact stmt_append s h
      · rw [h1] at h ⊢
        dsimp only at h ⊢
        exact stmt_append s h

/-- The conjunction tail loop finishes on an empty stream. -/
theorem conjRest_nil_eval {n : Nat} {acc : List Condition} {c : Condition}
    (h : _finish_conds "and" acc = .ok c) :
    parseConjRest (n + 1) acc [] = .ok (c, []) := by
  rw [parseConjRest]
  dsimp only [accept_type]
  rw [h, ok_bind]
  rfl

/-- The disjunction tail loop finishes on an empty stream. -/
theorem disjRest_nil_eval {n : Nat} {acc : List Condition} {c : Condition}
    (h : _finish_conds "or" acc = .ok c) :
    parseDisjRest (n + 1) acc [] = .ok (c, []) := by
  rw [parseDisjRest]
  dsimp only [accept_type]
  rw [h, ok_bind]
  rfl

/-- The where-clause loop finishes on an empty stream. -/
theorem whereLoop_nil_eval {n : Nat} {acc : List Condition} :
    parseWhereLoop (n + 1) acc [] = .ok (acc, []) := by
  rw [parseWhereLoop]
  dsimp only [accept_type]
  rfl

/-- The query produced for `i-id from item where i-id = 10 or i-id = 20
where i-length = 3`: the two where clauses become conjuncts of one outer
and-node. -/
def c4QueryA : Query :=
  { projection := ["i-id"], relations := ["item"],
    condition := some (.boolean "and"
      [.boolean "or"
        [.comparison "==" "i-id" (.int 10), .comparison "==" "i-id" (.int 20)],
       .comparison "==" "i-length" (.int 3)]) }

/-- The query produced for the single clause `where i-id = 10 or i-id = 20
and i-length = 3`: precedence attaches the and-node under the or-node. -/
def c4QueryB : Query :=
  { projection := ["i-id"], relations := ["item"],
    condition := some (.boolean "or"
      [.comparison "==" "i-id" (.int 10),
       .boolean "and"
        [.comparison "==" "i-id" (.int 20), .comparison "==" "i-length" (.int 3)]]) }

set_option maxHeartbeats 1000000 in
/-- Claim C4 counterexample: with A = `i-id = 10 or i-id = 20` and
B = `i-length = 3`, the two-clause form `where A where B` parses to
and(or(10, 20), len3) while the single clause `where A and B` parses to
or(10, and(20, len3)) — conjunction binds tighter than disjunction, so the
second where clause is NOT textually equivalent to appending `and B`. The
two conditions disagree on the row (i-id = 10, i-length = 99). -/
theorem claim_C4_counterexample :
    _parse_select "i-id from item where i-id = 10 or i-id = 20 where i-length = 3"
      = .ok c4QueryA ∧
    _parse_select "i-id from item where i-id = 10 or i-id = 20 and i-length = 3"
      = .ok c4QueryB ∧
    evalCondition [("i-id", 0), ("i-length", 1)]
      (.boolean "and"
        [.boolean "or"
          [.comparison "==" "i-id" (.int 10), .comparison "==" "i-id" (.int 20)],
         .comparison "==" "i-length" (.int 3)])
      [.int 10, .int 99] = false ∧
    evalCondition [("i-id", 0), ("i-length", 1)]
      (.boolean "or"
        [.comparison "==" "i-id" (.int 10),
         .boolean "and"
          [.comparison "==" "i-id" (.int 20), .comparison "==" "i-length" (.int 3)]])
      [.int 10, .int 99] = true :=
  ⟨rfl, rfl, rfl, rfl⟩

/-- Claim C4 (amended): the parser always combines the conditions of
multiple where clauses as conjuncts of one outer and-node: if tokens tA
and tB each parse as complete condition disjunctions cA and cB, then
`where tA where tB` yields exactly `('and', [cA, cB])`. The textual
equivalence with the single clause `where tA and tB` holds when tA and tB
are atomic condition units (parenthesized groups or comparisons): then
both forms yield `('and', [uA, uB])`. (It fails for general bodies — see
the counterexample — because `and` binds tighter than `or`.) -/
theorem claim_C4_amended :
    (∀ (n : Nat) (tA tB : List Token) (cA cB : Condition),
      _parse_condition_disjunction n tA = .ok (cA, []) →
      _parse_condition_disjunction n tB = .ok (cB, []) →
      _parse_select_where (n + 4)
          (⟨TokT.WHERE, "where"⟩ :: (tA ++ ⟨TokT.WHERE, "where"⟩ :: tB))
        = .ok (some (.boolean "and" [cA, cB]), [])) ∧
    (∀ (n : Nat) (tA tB : List Token) (uA uB : Condition) (a b : Token),
      tA.head? = some a → (a.typ = .LPAREN ∨ a.typ = .QID ∨ a.typ = .ID) →
      tB.head? = some b → (b.typ = .LPAREN ∨ b.typ = .QID ∨ b.typ = .ID) →
      parseCondUnit n tA = .ok (uA, []) →
      parseCondUnit n tB = .ok (uB, []) →
      _parse_select_where (n + 7)
          (⟨TokT.WHERE, "where"⟩ :: (tA ++ ⟨TokT.WHERE, "where"⟩ :: tB))
        = .ok (some (.boolean "and" [uA, uB]), []) ∧
      _parse_select_where (n + 7)
          (⟨TokT.WHERE, "where"⟩ :: (tA ++ ⟨TokT.AND, "and"⟩ :: tB))
        = .ok (some (.boolean "and" [uA, uB]), [])) := by
  have part1 : ∀ (n : Nat) (tA tB : List Token) (cA cB : Condition),
      _parse_condition_disjunction n tA = .ok (cA, []) →
      _parse_condition_disjunction n tB = .ok (cB, []) →
      _parse_select_where (n + 4)
          (⟨TokT.WHERE, "where"⟩ :: (tA ++ ⟨TokT.WHERE, "where"⟩ :: tB))
        = .ok (some (.boolean "and" [cA, cB]), []) := by
    intro n tA tB cA cB hA hB
    have hW : noAndOrHead (⟨TokT.WHERE, "where"⟩ :: tB) := by
      intro t ht
      injection ht with ht
      subst ht
      exact ⟨by decide, by decide⟩
    have hA3 : _parse_condition_disjunction (n + 3) (tA ++ ⟨TokT.WHERE, "where"⟩ :: tB)
        = .ok (cA, ⟨TokT.WHERE, "where"⟩ :: tB) := by
      have h1 := disj_mono (Nat.le_add_right n 3) hA
      have h2 := (parser_ext (n + 3)).1 tA (⟨TokT.WHERE, "where"⟩ :: tB) cA [] h1
        (fun _ => hW)
      simpa using h2
    have hB2 : _parse_condition_disjunction (n + 2) tB = .ok (cB, []) :=
      disj_mono (Nat.le_add_right n 2) hB
    have hw : parseWhereLoop (n + 4) []
        (⟨TokT.WHERE, "where"⟩ :: (tA ++ ⟨TokT.WHERE, "where"⟩ :: tB))
        = .ok ([cA, cB], []) := by
      rw [show n + 4 = (n + 3) + 1 from rfl, parseWhereLoop]
      have hacc : accept_type TokT.WHERE
          (⟨TokT.WHERE, "where"⟩ :: (tA ++ ⟨TokT.WHERE, "where"⟩ :: tB))
          = some ("where", tA ++ ⟨TokT.WHERE, "where"⟩ :: tB) := rfl
      rw [hacc]
      dsimp only
      rw [hA3, ok_bind]
      dsimp only
      rw [show n + 3 = (n + 2) + 1 from rfl, parseWhereLoop]
      have hacc2 : accept_type TokT.WHERE (⟨TokT.WHERE, "where"⟩ :: tB)
          = some ("where", tB) := rfl
      rw [hacc2]
      dsimp only
      rw [hB2, ok_bind]
      dsimp only
      exact whereLoop_nil_eval
    simp only [_parse_select_where]
    rw [hw, ok_bind]
    rfl
  refine ⟨part1, ?_⟩
  intro n tA tB uA uB a b hha hta hhb htb hA hB
  have hcA : _parse_condition_conjunction (n + 2) tA = .ok (uA, []) := by
    rw [show n + 2 = (n + 1) + 1 from rfl, _parse_condition_conjunction]
    rw [unit_mono (Nat.le_add_right n 1) hA, ok_bind]
    dsimp only
    exact conjRest_nil_eval rfl
  have hcB : _parse_condition_conjunction (n + 2) tB = .ok (uB, []) := by
    rw [show n + 2 = (n + 1) + 1 from rfl, _parse_condition_conjunction]
    rw [unit_mono (Nat.le_add_right n 1) hB, ok_bind]
    dsimp only
    exact conjRest_nil_eval rfl
  have hdA : _parse_condition_disjunction (n + 3) tA = .ok (uA, []) := by
    rw [show n + 3 = (n + 2) + 1 from rfl, _parse_condition_disjunction]
    rw [hcA, ok_bind]
    dsimp only
    exact disjRest_nil_eval rfl
  have hdB : _parse_condition_disjunction (n + 3) tB = .ok (uB, []) := by
    rw [show n + 3 = (n + 2) + 1 from rfl, _parse_condition_disjunction]
    rw [hcB, ok_bind]
    dsimp only
    exact disjRest_nil_eval rfl
  constructor
  · exact part1 (n + 3) tA tB uA uB hdA hdB
  · have hextA : parseCondUnit (n + 4) (tA ++ ⟨TokT.AND, "and"⟩ :: tB)
        = .ok (uA, ⟨TokT.AND, "and"⟩ :: tB) := by
      have h1 := unit_mono (Nat.le_add_right n 4) hA
      have h2 := unit_ext_atomic (⟨TokT.AND, "and"⟩ :: tB) hha hta h1
      simpa using h2
    have hBm : parseCondUnit (n + 3) tB = .ok (uB, []) :=
      unit_mono (Nat.le_add_right n 3) hB
    have hconj : _parse_condition_conjunction (n + 5) (tA ++ ⟨TokT.AND, "and"⟩ :: tB)
        = .ok (.boolean "and" [uA, uB], []) := by
      rw [show n + 5 = (n + 4) + 1 from rfl, _parse_condition_conjunction]
      rw [hextA, ok_bind]
      dsimp only
      rw [show n + 4 = (n + 3) + 1 from rfl, parseConjRest]
      have hacc : accept_type TokT.AND (⟨TokT.AND, "and"⟩ :: tB)
          = some ("and", tB) := rfl
      rw [hacc]
      dsimp only
      rw [hBm, ok_bind]
      dsimp only
      exact conjRest_nil_eval rfl
    have hdisj : _parse_condition_disjunction (n + 6) (tA ++ ⟨TokT.AND, "and"⟩ :: tB)
        = .ok (.boolean "and" [uA, uB], []) := by
      rw [show n + 6 = (n + 5) + 1 from rfl, _parse_condition_disjunction]
      rw [hconj, ok_bind]
      dsimp only
      exact disjRest_nil_eval rfl
    have hw : parseWhereLoop (n + 7) []
        (⟨TokT.WHERE, "where"⟩ :: (tA ++ ⟨TokT.AND, "and"⟩ :: tB))
        = .ok ([Condition.boolean "and" [uA, uB]], []) := by
      rw [show n + 7 = (n + 6) + 1 from rfl, parseWhereLoop]
      have hacc : accept_type TokT.WHERE
          (⟨TokT.WHERE, "where"⟩ :: (tA ++ ⟨TokT.AND, "and"⟩ :: tB))
          = some ("where", tA ++ ⟨TokT.AND, "and"⟩ :: tB) := rfl
      rw [hacc]
      dsimp only
      rw [hdisj, ok_bind]
      dsimp only
      exact whereLoop_nil_eval
    simp only [_parse_select_where]
    rw [hw, ok_bind]
    rfl

/-- Token list for the comparison `i-id = 10`. -/
def c4TokensA : List Token := [⟨TokT.ID, "i-id"⟩, ⟨TokT.OP, "="⟩, ⟨TokT.INT, "10"⟩]

/-- Token list for the comparison `i-length = 3`. -/
def c4TokensB : List Token := [⟨TokT.ID, "i-length"⟩, ⟨TokT.OP, "="⟩, ⟨TokT.INT, "3"⟩]

/-- The condition parsed from `i-id = 10`. -/
def c4CondA : Condition := .comparison "==" "i-id" (.int 10)

/-- The condition parsed from `i-length = 3`. -/
def c4CondB : Condition := .comparison "==" "i-length" (.int 3)

/-- Witness for claim C4 (amended) at the concrete comparisons
`i-id = 10` and `i-length = 3`. -/
theorem claim_C4_witness :
    _parse_select_where 7
        (⟨TokT.WHERE, "where"⟩ :: (c4TokensA ++ ⟨TokT.WHERE, "where"⟩ :: c4TokensB))
      = .ok (some (.boolean "and" [c4CondA, c4CondB]), []) ∧
    _parse_select_where 8
        (⟨TokT.WHERE, "where"⟩ :: (c4TokensA ++ ⟨TokT.WHERE, "where"⟩ :: c4TokensB))
      = .ok (some (.boolean "and" [c4CondA, c4CondB]), []) ∧
    _parse_select_where 8
        (⟨TokT.WHERE, "where"⟩ :: (c4TokensA ++ ⟨TokT.AND, "and"⟩ :: c4TokensB))
      = .ok (some (.boolean "and" [c4CondA, c4CondB]), []) :=
  ⟨claim_C4_amended.1 3 c4TokensA c4TokensB c4CondA c4CondB rfl rfl,
   (claim_C4_amended.2 1 c4TokensA c4TokensB c4CondA c4CondB
      ⟨TokT.ID, "i-id"⟩ ⟨TokT.ID, "i-length"⟩ rfl (Or.inr (Or.inr rfl)) rfl
      (Or.inr (Or.inr rfl)) rfl rfl).1,
   (claim_C4_amended.2 1 c4TokensA c4TokensB c4CondA c4CondB
      ⟨TokT.ID, "i-id"⟩ ⟨TokT.ID, "i-length"⟩ rfl (Or.inr (Or.inr rfl)) rfl
      (Or.inr (Or.inr rfl)) rfl rfl).2⟩

/-- A `pure` value feeds straight into a bind. -/
theorem pure_bind_ex {α β : Type} (a : α) (f : α → Except QErr β) :
    (pure a : Except QErr α) >>= f = f a := rfl

/-- Reading off the payload of a `throw` that equals an `error`. -/
theorem throw_eq {α : Type} {e₁ e₂ : QErr} (h : (throw e₁ : Except QErr α) = .error e₂) :
    e₁ = e₂ := Except.error.inj h

/-- The errors the lexer operations and condition parsers can raise: the
two lexer syntax errors, the empty-condition syntax error, and fuel
exhaustion (an artifact of the embedding). -/
def parserErr (e : QErr) : Prop :=
  e = QErr.syntaxErr "unexpected end of input" ∨ e = QErr.syntaxErr "unexpected token" ∨
  e = QErr.syntaxErr "invalid query" ∨ e = QErr.outOfFuel

/-- Every parser-raisable error is a syntax error or fuel exhaustion. -/
theorem parserErr_weaken {e : QErr} (h : parserErr e) :
    (∃ msg, e = QErr.syntaxErr msg) ∨ e = QErr.outOfFuel := by
  rcases h with h | h | h | h
  · exact Or.inl ⟨_, h⟩
  · exact Or.inl ⟨_, h⟩
  · exact Or.inl ⟨_, h⟩
  · exact Or.inr h

/-- `expect_type` only raises the two lexer syntax errors. -/
theorem expect_type_err {t : TokT} {l : List Token} {e : QErr}
    (h : expect_type t l = .error e) : parserErr e := by
  cases l with
  | nil => left; exact (throw_eq h).symm
  | cons tok rest =>
    by_cases hm : tok.typ = t
    · rw [expect_type, if_pos hm] at h
      exact absurd h (fun hh => nomatch hh)
    · rw [expect_type, if_neg hm] at h
      right; left; exact (throw_eq h).symm

/-- `choice_type` only raises the two lexer syntax errors. -/
theorem choice_type_err {ts : List TokT} {l : List Token} {e : QErr}
    (h : choice_type ts l = .error e) : parserErr e := by
  cases l with
  | nil => left; exact (throw_eq h).symm
  | cons tok rest =>
    by_cases hm : tok.typ ∈ ts
    · rw [choice_type, if_pos hm] at h
      exact absurd h (fun hh => nomatch hh)
    · rw [choice_type, if_neg hm] at h
      right; left; exact (throw_eq h).symm

/-- `_finish_conds` only raises the invalid-query syntax error. -/
theorem finish_conds_err {op : String} {conds : List Condition} {e : QErr}
    (h : _finish_conds op conds = .error e) : parserErr e := by
  cases conds with
  | nil => right; right; left; exact (throw_eq h).symm
  | cons c cs =>
    cases cs with
    | nil => exact absurd h (fun hh => nomatch hh)
    | cons d ds => exact absurd h (fun hh => nomatch hh)

/-- `_parse_condition_statement` only raises lexer syntax errors. -/
theorem statement_err {col : String} {l : List Token} {e : QErr}
    (h : _parse_condition_statement col l = .error e) : parserErr e := by
  simp only [_parse_condition_statement] at h
  cases hop : expect_type .OP l with
  | error e₁ =>
    rw [hop, error_bind] at h
    injection h with h
    exact h ▸ expect_type_err hop
  | ok p =>
    obtain ⟨op, l₁⟩ := p
    rw [hop, ok_bind] at h
    dsimp only at h
    by_cases h1 : (if op = "=" then "==" else op) = "~" ∨
        (if op = "=" then "==" else op) = "!~"
    · rw [if_pos h1] at h
      cases hch : choice_type [.DQSTRING, .SQSTRING] l₁ with
      | error e₁ =>
        rw [hch, error_bind] at h
        injection h with h
        exact h ▸ choice_type_err hch
      | ok q =>
        obtain ⟨tok, l₂⟩ := q
        rw [hch, ok_bind] at h
        exact absurd h (fun hh => nomatch hh)
    · rw [if_neg h1] at h
      by_cases h2 : (if op = "=" then "==" else op) = "<" ∨
          (if op = "=" then "==" else op) = "<=" ∨
          (if op = "=" then "==" else op) = ">" ∨
          (if op = "=" then "==" else op) = ">="
      · rw [if_pos h2] at h
        cases hch : choice_type [.INT, .YYYYMMDD, .DDMMYY, .KWDATE] l₁ with
        | error e₁ =>
          rw [hch, error_bind] at h
          injection h with h
          exact h ▸ choice_type_err hch
        | ok q =>
          obtain ⟨tok, l₂⟩ := q
          rw [hch, ok_bind] at h
          exact absurd h (fun hh => nomatch hh)
      · rw [if_neg h2] at h
        cases hch : choice_type [.INT, .DQSTRING, .SQSTRING, .YYYYMMDD, .DDMMYY, .KWDATE] l₁ with
        | error e₁ =>
          rw [hch, error_bind] at h
          injection h with h
          exact h ▸ choice_type_err hch
        | ok q =>
          obtain ⟨tok, l₂⟩ := q
          rw [hch, ok_bind] at h
          exact absurd h (fun hh => nomatch hh)

/-- The five condition-parser functions only raise lexer syntax errors,
the invalid-query error, or fuel exhaustion. -/
theorem parser_err : ∀ n : Nat,
    (∀ l e, _parse_condition_disjunction n l = .error e → parserErr e) ∧
    (∀ acc l e, parseDisjRest n acc l = .error e → parserErr e) ∧
    (∀ l e, _parse_condition_conjunction n l = .error e → parserErr e) ∧
    (∀ acc l e, parseConjRest n acc l = .error e → parserErr e) ∧
    (∀ l e, parseCondUnit n l = .error e → parserErr e) := by
  intro n
  induction n with
  | zero =>
    refine ⟨?_, ?_, ?_, ?_, ?_⟩
    · intro l e h; right; right; right; exact (throw_eq h).symm
    · intro acc l e h; right; right; right; exact (throw_eq h).symm
    · intro l e h; right; right; right; exact (throw_eq h).symm
    · intro acc l e h; right; right; right; exact (throw_eq h).symm
    · intro l e h; right; right; right; exact (throw_eq h).symm
  | succ n ih =>
    obtain ⟨ihD, ihDR, ihC, ihCR, ihU⟩ := ih
    refine ⟨?_, ?_, ?_, ?_, ?_⟩
    · intro l e h
      rw [_parse_condition_disjunction] at h
      cases hc : _parse_condition_conjunction n l with
      | error e₁ =>
        rw [hc, error_bind] at h
        injection h with h
        exact h ▸ ihC _ _ hc
      | ok p =>
        obtain ⟨c₁, l₁⟩ := p
        rw [hc, ok_bind] at h
        dsimp only at h
        exact ihDR _ _ _ h
    · intro acc l e h
      rw [parseDisjRest] at h
      cases ha : accept_type .OR l with
      | none =>
        rw [ha] at h
        cases hf : _finish_conds "or" acc with
        | error e₁ =>
          rw [hf, error_bind] at h
          injection h with h
          exact h ▸ finish_conds_err hf
        | ok c₁ =>
          rw [hf, ok_bind] at h
          exact absurd h (fun hh => nomatch hh)
      | some p =>
        obtain ⟨v, l₁⟩ := p
        rw [ha] at h
        dsimp only at h
        cases hc : _parse_condition_conjunction n l₁ with
        | error e₁ =>
          rw [hc, error_bind] at h
          injection h with h
          exact h ▸ ihC _ _ hc
        | ok q =>
          obtain ⟨c₁, l₂⟩ := q
          rw [hc, ok_bind] at h
          dsimp only at h
          exact ihDR _ _ _ h
    · intro l e h
      rw [_parse_condition_conjunction] at h
      cases hu : parseCondUnit n l with
      | error e₁ =>
        rw [hu, error_bind] at h
        injection h with h
        exact h ▸ ihU _ _ hu
      | ok p =>
        obtain ⟨c₁, l₁⟩ := p
        rw [hu, ok_bind] at h
        dsimp only at h
        exact ihCR _ _ _ h
    · intro acc l e h
      rw [parseConjRest] at h
      cases ha : accept_type .AND l with
      | none =>
        rw [ha] at h
        cases hf : _finish_conds "and" acc with
        | error e₁ =>
          rw [hf, error_bind] at h
          injection h with h
          exact h ▸ finish_conds_err hf
        | ok c₁ =>
          rw [hf, ok_bind] at h
          exact absurd h (fun hh => nomatch hh)
      | some p =>
        obtain ⟨v, l₁⟩ := p
        rw [ha] at h
        dsimp only at h
        cases hu : parseCondUnit n l₁ with
        | error e₁ =>
          rw [hu, error_bind] at h
          injection h with h
          exact h ▸ ihU _ _ hu
        | ok q =>
          obtain ⟨c₁, l₂⟩ := q
          rw [hu, ok_bind] at h
          dsimp only at h
          exact ihCR _ _ _ h
    · intro l e h
      rw [parseCondUnit] at h
      cases hch : choice_type [.NOT, .LPAREN, .QID, .ID] l with
      | error e₁ =>
        rw [hch, error_bind] at h
        injection h with h
        exact h ▸ choice_type_err hch
      | ok p =>
        obtain ⟨tok, l₁⟩ := p
        rw [hch, ok_bind] at h
        obtain ⟨t, v⟩ := tok
        cases t <;> dsimp only at h <;> try exact statement_err h
        · cases hd : _parse_condition_disjunction n l₁ with
          | error e₁ =>
            rw [hd, error_bind] at h
            injection h with h
            exact h ▸ ihD _ _ hd
          | ok q =>
            obtain ⟨c₁, l₂⟩ := q
            rw [hd, ok_bind] at h
            exact absurd h (fun hh => nomatch hh)
        · cases hd : _parse_condition_disjunction n l₁ with
          | error e₁ =>
            rw [hd, error_bind] at h
            injection h with h
            exact h ▸ ihD _ _ hd
          | ok q =>
            obtain ⟨c₁, l₂⟩ := q
            rw [hd, ok_bind] at h
            dsimp only at h
            cases hx : expect_type .RPAREN l₂ with
            | error e₁ =>
              rw [hx, error_bind] at h
              injection h with h
              exact h ▸ expect_type_err hx
            | ok w =>
              obtain ⟨v₂, l₃⟩ := w
              rw [hx, ok_bind] at h
              exact absurd h (fun hh => nomatch hh)

/-- The where-clause loop only raises parser errors. -/
theorem whereLoop_err : ∀ (n : Nat) (acc : List Condition) (l : List Token) (e : QErr),
    parseWhereLoop n acc l = .error e → parserErr e := by
  intro n
  induction n with
  | zero => intro acc l e h; right; right; right; exact (throw_eq h).symm
  | succ n ih =>
    intro acc l e h
    rw [parseWhereLoop] at h
    cases ha : accept_type .WHERE l with
    | none =>
      rw [ha] at h
      exact absurd h (fun hh => nomatch hh)
    | some p =>
      obtain ⟨v, l₁⟩ := p
      rw [ha] at h
      dsimp only at h
      cases hd : _parse_condition_disjunction n l₁ with
      | error e₁ =>
        rw [hd, error_bind] at h
        injection h with h
        exact h ▸ (parser_err n).1 _ _ hd
      | ok q =>
        obtain ⟨c₁, l₂⟩ := q
        rw [hd, ok_bind] at h
        dsimp only at h
        exact ih _ _ _ h

/-- `_parse_select_where` only raises parser errors. -/
theorem select_where_err {n : Nat} {l : List Token} {e : QErr}
    (h : _parse_select_where n l = .error e) : parserErr e := by
  simp only [_parse_select_where] at h
  cases hw : parseWhereLoop n [] l with
  | error e₁ =>
    rw [hw, error_bind] at h
    injection h with h
    exact h ▸ whereLoop_err n [] l e₁ hw
  | ok p =>
    obtain ⟨conds, l₁⟩ := p
    rw [hw, ok_bind] at h
    exact absurd h (fun hh => nomatch hh)

/-- `_parse_select_projection` only raises lexer syntax errors. -/
theorem projection_err {tokens : List Token} {e : QErr}
    (h : _parse_select_projection tokens = .error e) : parserErr e := by
  simp only [_parse_select_projection] at h
  cases hch : choice_type [.STAR, .QID, .ID] tokens with
  | error e₁ =>
    rw [hch, error_bind] at h
    injection h with h
    exact h ▸ choice_type_err hch
  | ok p =>
    obtain ⟨tok, l₁⟩ := p
    rw [hch, ok_bind] at h
    dsimp only at h
    by_cases ht : tok.typ = .QID ∨ tok.typ = .ID
    · rw [if_pos ht] at h
      exact absurd h (fun hh => nomatch hh)
    · rw [if_neg ht] at h
      exact absurd h (fun hh => nomatch hh)

/-- `_parse_select_from` only raises lexer syntax errors. -/
theorem from_err {l : List Token} {e : QErr}
    (h : _parse_select_from l = .error e) : parserErr e := by
  simp only [_parse_select_from] at h
  cases ha : accept_type .FROM l with
  | none =>
    rw [ha] at h
    exact absurd h (fun hh => nomatch hh)
  | some p =>
    obtain ⟨v, l₁⟩ := p
    rw [ha] at h
    dsimp only at h
    cases hx : expect_type .ID l₁ with
    | error e₁ =>
      rw [hx, error_bind] at h
      injection h with h
      exact h ▸ expect_type_err hx
    | ok q =>
      obtain ⟨rel, l₂⟩ := q
      rw [hx, ok_bind] at h
      exact absurd h (fun hh => nomatch hh)

set_option maxHeartbeats 1000000 in
/-- Claim C7: a wildcard projection with an empty relation list never
parses successfully (for any fuel and token stream); every parse failure
is a syntax error (or fuel exhaustion, an artifact of the embedding);
with at least one relation named in the from clause the star-specific
syntax error is never raised; and concretely, `select *` fails with
exactly the star syntax error while `select * from item` succeeds. -/
theorem claim_C7 :
    (∀ (n : Nat) (tokens : List Token) (q : Query),
      _parse_select_tokens n tokens = .ok q →
      q.projection = ["*"] → q.relations ≠ []) ∧
    (∀ (n : Nat) (tokens : List Token) (e : QErr),
      _parse_select_tokens n tokens = .error e →
      (∃ msg, e = QErr.syntaxErr msg) ∨ e = QErr.outOfFuel) ∧
    (∀ (n : Nat) (tokens l₁ l₂ : List Token) (proj rels : List String),
      _parse_select_projection tokens = .ok (proj, l₁) →
      _parse_select_from l₁ = .ok (rels, l₂) → rels ≠ [] →
      _parse_select_tokens n tokens ≠
        .error (.syntaxErr "select * requires a from clause")) ∧
    _parse_select "*" = .error (.syntaxErr "select * requires a from clause") ∧
    _parse_select "* from item"
      = .ok { projection := ["*"], relations := ["item"], condition := none } := by
  refine ⟨?_, ?_, ?_, rfl, rfl⟩
  · intro n tokens q h hp
    simp only [_parse_select_tokens] at h
    cases hpr : _parse_select_projection tokens with
    | error e₁ => rw [hpr, error_bind] at h; exact absurd h (fun hh => nomatch hh)
    | ok p =>
      obtain ⟨proj, l₁⟩ := p
      rw [hpr, ok_bind] at h
      dsimp only at h
      cases hfr : _parse_select_from l₁ with
      | error e₁ => rw [hfr, error_bind] at h; exact absurd h (fun hh => nomatch hh)
      | ok p₂ =>
        obtain ⟨rels, l₂⟩ := p₂
        rw [hfr, ok_bind] at h
        dsimp only at h
        cases hwr : _parse_select_where n l₂ with
        | error e₁ => rw [hwr, error_bind] at h; exact absurd h (fun hh => nomatch hh)
        | ok p₃ =>
          obtain ⟨cond, l₃⟩ := p₃
          rw [hwr, ok_bind] at h
          dsimp only at h
          cases hdot : expect_type .DOT l₃ with
          | error e₁ => rw [hdot, error_bind] at h; exact absurd h (fun hh => nomatch hh)
          | ok p₄ =>
            obtain ⟨v, l₄⟩ := p₄
            rw [hdot, ok_bind] at h
            by_cases hif : proj = ["*"] ∧ rels = []
            · rw [if_pos hif, throw_bind] at h
              exact absurd h (fun hh => nomatch hh)
            · rw [if_neg hif, pure_bind_ex] at h
              injection h with h
              subst h
              intro hr
              exact hif ⟨hp, hr⟩
  · intro n tokens e h
    simp only [_parse_select_tokens] at h
    cases hpr : _parse_select_projection tokens with
    | error e₁ =>
      rw [hpr, error_bind] at h
      injection h with h
      exact h ▸ parserErr_weaken (projection_err hpr)
    | ok p =>
      obtain ⟨proj, l₁⟩ := p
      rw [hpr, ok_bind] at h
      dsimp only at h
      cases hfr : _parse_select_from l₁ with
      | error e₁ =>
        rw [hfr, error_bind] at h
        injection h with h
        exact h ▸ parserErr_weaken (from_err hfr)
      | ok p₂ =>
        obtain ⟨rels, l₂⟩ := p₂
        rw [hfr, ok_bind] at h
        dsimp only at h
        cases hwr : _parse_select_where n l₂ with
        | error e₁ =>
          rw [hwr, error_bind] at h
          injection h with h
          exact h ▸ parserErr_weaken (select_where_err hwr)
        | ok p₃ =>
          obtain ⟨cond, l₃⟩ := p₃
          rw [hwr, ok_bind] at h
          dsimp only at h
          cases hdot : expect_type .DOT l₃ with
          | error e₁ =>
            rw [hdot, error_bind] at h
            injection h with h
            exact h ▸ parserErr_weaken (expect_type_err hdot)
          | ok p₄ =>
            obtain ⟨v, l₄⟩ := p₄
            rw [hdot, ok_bind] at h
            by_cases hif : proj = ["*"] ∧ rels = []
            · rw [if_pos hif, throw_bind] at h
              injection h with h
              exact Or.inl ⟨_, h.symm⟩
            · rw [if_neg hif, pure_bind_ex] at h
              exact absurd h (fun hh => nomatch hh)
  · intro n tokens l₁ l₂ proj rels hpr hfr hne h
    simp only [_parse_select_tokens] at h
    rw [hpr, ok_bind] at h
    dsimp only at h
    rw [hfr, ok_bind] at h
    dsimp only at h
    cases hwr : _parse_select_where n l₂ with
    | error e₁ =>
      rw [hwr, error_bind] at h
      injection h with h
      have hp := select_where_err hwr
      rw [h] at hp
      rcases hp with h1 | h1 | h1 | h1 <;> exact absurd h1 (by decide)
    | ok p₃ =>
      obtain ⟨cond, l₃⟩ := p₃
      rw [hwr, ok_bind] at h
      dsimp only at h
      cases hdot : expect_type .DOT l₃ with
      | error e₁ =>
        rw [hdot, error_bind] at h
        injection h with h
        have hp := expect_type_err hdot
        rw [h] at hp
        rcases hp with h1 | h1 | h1 | h1 <;> exact absurd h1 (by decide)
      | ok p₄ =>
        obtain ⟨v, l₄⟩ := p₄
        rw [hdot, ok_bind] at h
        by_cases hif : proj = ["*"] ∧ rels = []
        · exact hne hif.2
        · rw [if_neg hif, pure_bind_ex] at h
          exact absurd h (fun hh => nomatch hh)

/-- The token stream of `select * from item` (with the sentinel dot). -/
def c7Tokens : List Token :=
  [⟨TokT.STAR, "*"⟩, ⟨TokT.FROM, "from"⟩, ⟨TokT.ID, "item"⟩, ⟨TokT.DOT, "."⟩]

/-- Witness for claim C7 at the token stream of `select * from item`. -/
theorem claim_C7_witness :
    (({ projection := ["*"], relations := ["item"], condition := none } : Query).relations
      ≠ []) ∧
    ((∃ msg, QErr.syntaxErr "unexpected end of input" = QErr.syntaxErr msg) ∨
      QErr.syntaxErr "unexpected end of input" = QErr.outOfFuel) ∧
    _parse_select_tokens 15 c7Tokens ≠
      .error (.syntaxErr "select * requires a from clause") :=
  ⟨claim_C7.1 15 c7Tokens _ rfl rfl,
   claim_C7.2.1 1 [] (QErr.syntaxErr "unexpected end of input") rfl,
   claim_C7.2.2.1 15 c7Tokens [⟨TokT.FROM, "from"⟩, ⟨TokT.ID, "item"⟩, ⟨TokT.DOT, "."⟩]
     [⟨TokT.DOT, "."⟩] ["*"] ["item"] rfl rfl (fun hh => nomatch hh)⟩

end TSQLSpec
